import Mathlib

/-!
Verification of the cash-flow aggregation and forecasting engine.

This file gives a shallow embedding, in Lean 4, of the pure computations of
the cash-flow dashboard: the daily flow view (two-phase transfer netting and
running balances), the monthly flow view (single-pass aggregation), the
Saturday-anchored week bucketing, and the forecasted monthly flow view
(trailing averages, year-over-year dampening, stochastic variation with
end-of-year reconciliation, and the derived VAT category).

JS `Map` objects and plain objects used as dictionaries are modelled as
association lists (`mget` / `mset` below reproduce `Map.get` / `Map.set`
semantics: lookup of the first matching key, in-place replacement of an
existing key, insertion-order append of a new key).  Floating point amounts
are modelled as exact rationals; date strings are modelled structurally as
year/month/day triples together with a parser and a zero-padded printer for
the string-level facts.  `Math.random()` draws are modelled as an explicit
stream `Nat → ℚ` consumed in call order.
-/

namespace CashFlow

/-! ## Association-list dictionaries (model of JS `Map` / object maps) -/

def mget {κ β : Type} [DecidableEq κ] (m : List (κ × β)) (k : κ) : Option β :=
  match m with
  | [] => none
  | p :: rest => if p.1 = k then some p.2 else mget rest k

def mgetD {κ β : Type} [DecidableEq κ] (m : List (κ × β)) (k : κ) (d : β) : β :=
  (mget m k).getD d

/-- `Map.set`: replace the first occurrence of the key, else append. -/
def mset {κ β : Type} [DecidableEq κ] (m : List (κ × β)) (k : κ) (v : β) :
    List (κ × β) :=
  match m with
  | [] => [(k, v)]
  | p :: rest => if p.1 = k then (k, v) :: rest else p :: mset rest k v

/-- The read-modify-write pattern `map.set(k, f(map.get(k) ?? d))`. -/
def mupd {κ β : Type} [DecidableEq κ] (m : List (κ × β)) (k : κ) (d : β)
    (f : β → β) : List (κ × β) :=
  mset m k (f (mgetD m k d))

/-- `map.set(k, (map.get(k) || 0) + a)`. -/
def mupdAdd {κ : Type} [DecidableEq κ] (m : List (κ × ℚ)) (k : κ) (a : ℚ) :
    List (κ × ℚ) :=
  mset m k (mgetD m k 0 + a)

/-- The guarded-mutation pattern `const v = map.get(k); if (v) { mutate v }`. -/
def mupdIfPresent {κ β : Type} [DecidableEq κ] (m : List (κ × β)) (k : κ)
    (f : β → β) : List (κ × β) :=
  match mget m k with
  | some v => mset m k (f v)
  | none => m

/-- `Map.delete`. -/
def mdelete {κ β : Type} [DecidableEq κ] (m : List (κ × β)) (k : κ) :
    List (κ × β) :=
  match m with
  | [] => []
  | p :: rest => if p.1 = k then rest else p :: mdelete rest k

/-- Sum of the values of all entries carrying key `k`. -/
def keySum {κ : Type} [DecidableEq κ] (m : List (κ × ℚ)) (k : κ) : ℚ :=
  ((m.filter (fun p => p.1 = k)).map (·.2)).sum

/-- The key lists of the association lists built below never repeat a key. -/
def NodupKeys {κ β : Type} (m : List (κ × β)) : Prop :=
  (m.map (·.1)).Nodup

/-! ## Calendar arithmetic (model of the JS `Date` operations used) -/

/-- Civil date, the model of a parsed `"YYYY-MM-DD"` string. -/
structure Date where
  year : Int
  month : Nat
  day : Nat
deriving DecidableEq, Repr

def leapYear (y : Int) : Bool :=
  y % 4 == 0 && (y % 100 != 0 || y % 400 == 0)

def daysInMonth (y : Int) (m : Nat) : Nat :=
  if m = 2 then (if leapYear y then 29 else 28)
  else if m = 4 ∨ m = 6 ∨ m = 9 ∨ m = 11 then 30 else 31

/-- Days since 1970-01-01 of a civil date (Hinnant's algorithm; all
divisions act on non-negative operands thanks to the guards, as in the
original). -/
def daysFromCivil (y0 m d : Int) : Int :=
  let y := if m ≤ 2 then y0 - 1 else y0
  let era := (if 0 ≤ y then y else y - 399) / 400
  let yoe := y - era * 400
  let mp := (m + 9) % 12
  let doy := (153 * mp + 2) / 5 + d - 1
  let doe := yoe * 365 + yoe / 4 - yoe / 100 + doy
  era * 146097 + doe - 719468

/-- Civil date from days since 1970-01-01 (Hinnant's algorithm). -/
def civilFromDays (z0 : Int) : Date :=
  let z := z0 + 719468
  let era := (if 0 ≤ z then z else z - 146096) / 146097
  let doe := z - era * 146097
  let yoe := (doe - doe / 1460 + doe / 36524 - doe / 146096) / 365
  let y := yoe + era * 400
  let doy := doe - (365 * yoe + yoe / 4 - yoe / 100)
  let mp := (5 * doy + 2) / 153
  let d := doy - (153 * mp + 2) / 5 + 1
  let m := mp + (if mp < 10 then 3 else -9)
  ⟨y + (if m ≤ 2 then 1 else 0), m.toNat, d.toNat⟩

def Date.toDays (dt : Date) : Int :=
  daysFromCivil dt.year dt.month dt.day

/-- The `"YYYY-MM"` month key `t.date.substring(0, 7)`, modelled
structurally. -/
def Date.monthKey (dt : Date) : Int × Nat :=
  (dt.year, dt.month)

/-- Day number of the noon-anchored first day of a month, the model of
`new Date(month + "-01T12:00:00Z")` for day-granularity comparisons. -/
def monthStartDays (my : Int × Nat) : Int :=
  daysFromCivil my.1 my.2 1

/-- `d.setMonth(d.getMonth() + k)` at day granularity: JS normalizes a
day-of-month overflow by rolling into the following month, which is what
adding `day - 1` to the first of the target month produces. -/
def addMonthsDays (dt : Date) (k : Int) : Int :=
  let t : Int := dt.year * 12 + ((dt.month : Int) - 1) + k
  daysFromCivil (t / 12) (t % 12 + 1) 1 + ((dt.day : Int) - 1)

/-- `getUTCDay()` on a day number: 0 = Sunday … 6 = Saturday
(1970-01-01, day 0, was a Thursday). -/
def dayOfWeekFromDays (z : Int) : Int :=
  (z + 4) % 7

def zeroPad (w : Nat) (s : String) : String :=
  String.mk (List.replicate (w - s.length) '0') ++ s

/-- Render a civil date as a normalized ISO `"YYYY-MM-DD"` string, the model
of `date.toISOString().split("T")[0]` for dates in the civil range used. -/
def printDate (dt : Date) : String :=
  zeroPad 4 (toString dt.year.toNat) ++ "-" ++ zeroPad 2 (toString dt.month)
    ++ "-" ++ zeroPad 2 (toString dt.day)

/-- Parse a `"YYYY-MM-DD"` string; `none` models an input on which
`new Date(s + "T12:00:00Z")` is an Invalid Date. -/
def parseDateString (s : String) : Option Date :=
  match s.splitOn "-" with
  | [ys, ms, ds] =>
    match ys.toNat?, ms.toNat?, ds.toNat? with
    | some y, some m, some d =>
      if ys.length = 4 ∧ ms.length = 2 ∧ ds.length = 2 ∧ 1 ≤ m ∧ m ≤ 12
          ∧ 1 ≤ d ∧ d ≤ daysInMonth y m
      then some ⟨y, m, d⟩ else none
    | _, _, _ => none
  | _ => none

/-! ## Record model -/

inductive TransactionType where
  | Income
  | Expense
deriving DecidableEq, Repr

structure Guide where
  id : String
  name : String
  isInactiveForForecast : Bool := false
deriving DecidableEq, Repr

structure Transaction where
  id : String := ""
  bank : String := ""
  guide : String
  date : Date
  description : String := ""
  amountMN : ℚ
  amountME : ℚ := 0
  type : TransactionType
  assigned : String := ""
deriving DecidableEq, Repr

/-- The view-level choice between `t.amountMN` and `t.amountME`. -/
inductive AmountField where
  | mn
  | me
deriving DecidableEq, Repr

def Transaction.amt (t : Transaction) (f : AmountField) : ℚ :=
  match f with
  | .mn => t.amountMN
  | .me => t.amountME

/-- `guideMap.get(id) || "Sin Categoría"`.  A JS `Map` built from an entry
list keeps the *last* entry of a duplicated key, hence the reversed
search. -/
def guideNameOf (guides : List Guide) (id : String) : String :=
  match guides.reverse.find? (fun g => g.id = id) with
  | some g => g.name
  | none => "Sin Categoría"

/-- Per-bucket `{income, expense, net}` accumulator. -/
@[ext]
structure Totals where
  income : ℚ
  expense : ℚ
  net : ℚ
deriving DecidableEq, Repr

def Totals.zero : Totals := ⟨0, 0, 0⟩

/-- Add contributions to the three accumulators at once. -/
def Totals.add3 (t : Totals) (i e n : ℚ) : Totals :=
  ⟨t.income + i, t.expense + e, t.net + n⟩

/-! ## Shared aggregation cores -/

/-- The reserved Transfer category id. -/
def transferGuideId : String := "13"

/-- Route a non-transfer item into the accumulators by its `type` field:
`income` for `Income`, `expense` otherwise; `net` always. -/
def routeByType (t : Transaction) (f : AmountField) (tot : Totals) : Totals :=
  if t.type = TransactionType.Income then
    ⟨tot.income + t.amt f, tot.expense, tot.net + t.amt f⟩
  else
    ⟨tot.income, tot.expense + t.amt f, tot.net + t.amt f⟩

/-- Zero-initialized totals map over the bucket sequence
(`buckets.forEach(b => totals.set(b, {income: 0, expense: 0, net: 0}))`). -/
def initTotals {κ : Type} [DecidableEq κ] (buckets : List κ) :
    List (κ × Totals) :=
  buckets.foldl (fun acc b => mset acc b Totals.zero) []

/-- Phase one of DailyFlowView's transfer handling: sum all transfer legs
into one net figure per bucket. -/
def netTransfersBy {κ : Type} [DecidableEq κ] (key : Transaction → κ)
    (f : AmountField) (ts : List Transaction) : List (κ × ℚ) :=
  ts.foldl (fun acc t =>
    if t.guide = transferGuideId then mupdAdd acc (key t) (t.amt f) else acc) []

/-- DailyFlowView's two-phase scheme for per-bucket totals: net the
transfers per bucket first, process non-transfer items by `type`, then add
each bucket's single transfer net to that bucket's `income` (and `net`). -/
def twoPhaseTotals {κ : Type} [DecidableEq κ] (buckets : List κ)
    (key : Transaction → κ) (f : AmountField) (ts : List Transaction) :
    List (κ × Totals) :=
  let dnt := netTransfersBy key f ts
  let tot2 := ts.foldl (fun acc t =>
    if t.guide ≠ transferGuideId then
      mupdIfPresent acc (key t) (routeByType t f)
    else acc) (initTotals buckets)
  if dnt.isEmpty then tot2
  else dnt.foldl (fun acc p =>
    mupdIfPresent acc p.1 (fun tot =>
      ⟨tot.income + p.2, tot.expense, tot.net + p.2⟩)) tot2

/-- MonthlyFlowView's single-pass scheme for per-bucket totals: each
transfer leg is added directly to the `income` accumulator as it is
scanned; non-transfer items route by `type`; `net` always accumulates. -/
def singlePassTotals {κ : Type} [DecidableEq κ] (buckets : List κ)
    (key : Transaction → κ) (f : AmountField) (ts : List Transaction) :
    List (κ × Totals) :=
  ts.foldl (fun acc t =>
    mupdIfPresent acc (key t) (fun tot =>
      if t.guide = transferGuideId then
        ⟨tot.income + t.amt f, tot.expense, tot.net + t.amt f⟩
      else routeByType t f tot)) (initTotals buckets)

/-! ## Running balances -/

/-- Closing balances: the `Saldo Final` fold (`balance += net; push(balance)`). -/
def closingBalances (init : ℚ) (nets : List ℚ) : List ℚ :=
  match nets with
  | [] => []
  | n :: rest => (init + n) :: closingBalances (init + n) rest

/-- Opening balances: the `Saldo Inicial` fold (`push(balance); balance += net`). -/
def openingBalances (init : ℚ) (nets : List ℚ) : List ℚ :=
  match nets with
  | [] => []
  | n :: rest => init :: openingBalances (init + n) rest

/-! ## DailyFlowView -/

structure DailyFlowResult where
  dates : List Int
  dataByGuide : List (String × List (Int × ℚ))
  dailyTotals : List (Int × Totals)
  initialBalance : ℚ
deriving DecidableEq, Repr

/-- The start/end date filter of DailyFlowView. -/
def dailyFiltered (ts : List Transaction) (startF endF : Option Date) :
    List Transaction :=
  ts.filter (fun t =>
    (match startF with
     | some s => !(decide (t.date.toDays < s.toDays))
     | none => true) &&
    (match endF with
     | some e => !(decide (e.toDays < t.date.toDays))
     | none => true))

/-- Ascending sort by date (`new Date(a.date) - new Date(b.date)`). -/
def dailySorted (ts : List Transaction) : List Transaction :=
  List.insertionSort (fun a b => a.date.toDays ≤ b.date.toDays) ts

/-- The complete day sequence from `a` to `b` inclusive (the `for` loop
pushing one day at a time, as day numbers). -/
def dayRange (a b : Int) : List Int :=
  (List.range (b - a + 1).toNat).map (fun i => a + i)

/-- The per-transaction loops of DailyFlowView over an already filtered and
sorted record list: the single loop over `sorted` updates `dataByGuide` and
`dailyTotals` together (the two components of the pair state are its two
maps), then the netted transfers are written into both. -/
def dailyAgg (guides : List Guide) (dates : List Int) (f : AmountField)
    (sorted : List Transaction) :
    List (String × List (Int × ℚ)) × List (Int × Totals) :=
  let dnt := netTransfersBy (fun t => t.date.toDays) f sorted
  let step2 := fun (st : List (String × List (Int × ℚ)) × List (Int × Totals))
      (t : Transaction) =>
    (if t.guide ≠ transferGuideId then
       mupd st.1 (guideNameOf guides t.guide) []
         (fun gd => mupdAdd gd t.date.toDays (t.amt f))
     else st.1,
     if t.guide ≠ transferGuideId then
       mupdIfPresent st.2 t.date.toDays (routeByType t f)
     else st.2)
  let st2 := sorted.foldl step2 ([], initTotals dates)
  if dnt.isEmpty then st2
  else
    let tname := guideNameOf guides transferGuideId
    dnt.foldl (fun st p =>
      (mupd st.1 tname [] (fun gd => mset gd p.1 p.2),
       mupdIfPresent st.2 p.1 (fun tot =>
         ⟨tot.income + p.2, tot.expense, tot.net + p.2⟩))) st2

/-- The `dataByGuide` component of `dailyAgg` on its own: non-transfer
records accumulate under their resolved display names, then each day's
transfer net is written (not added) into the transfer category's row. -/
def dailyDataByGuide (guides : List Guide) (f : AmountField)
    (sorted : List Transaction) : List (String × List (Int × ℚ)) :=
  let dnt := netTransfersBy (fun t => t.date.toDays) f sorted
  let dbg2 := sorted.foldl (fun acc t =>
    if t.guide ≠ transferGuideId then
      mupd acc (guideNameOf guides t.guide) []
        (fun gd => mupdAdd gd t.date.toDays (t.amt f))
    else acc) []
  if dnt.isEmpty then dbg2
  else
    let tname := guideNameOf guides transferGuideId
    dnt.foldl (fun acc p => mupd acc tname [] (fun gd => mset gd p.1 p.2)) dbg2

def dailyFlowData (guides : List Guide) (transactions : List Transaction)
    (startF endF : Option Date) (f : AmountField) : DailyFlowResult :=
  -- dates are modelled structurally, so every record has a parseable date
  let validTransactions := transactions
  if validTransactions.isEmpty then ⟨[], [], [], 0⟩ else
  let initialBalance :=
    ((validTransactions.filter (fun t =>
      match startF with
      | some s => decide (t.date.toDays < s.toDays)
      | none => false)).map (·.amt f)).sum
  let filteredTransactions := dailyFiltered validTransactions startF endF
  if filteredTransactions.isEmpty then ⟨[], [], [], initialBalance⟩ else
  let sorted := dailySorted filteredTransactions
  let firstDate := (sorted.head?.map (·.date)).getD ⟨1970, 1, 1⟩
  let lastDate := (sorted.getLast?.map (·.date)).getD ⟨1970, 1, 1⟩
  let tableStartDate := startF.getD firstDate
  let tableEndDate := endF.getD lastDate
  let dates := dayRange tableStartDate.toDays tableEndDate.toDays
  let st3 := dailyAgg guides dates f sorted
  ⟨dates, st3.1, st3.2, initialBalance⟩

/-- The filter deciding whether a category row appears in the EGRESOS
section of DailyFlowView: transfers are excluded outright, other
categories appear when some bucket value is negative. -/
def expenseSectionKeep (transferName : String) (guideName : String)
    (data : List (Int × ℚ)) : Bool :=
  if guideName = transferName then false
  else (data.map (·.2)).any (fun v => decide (v < 0))

/-! ## MonthlyFlowView -/

structure MonthlyFlowResult where
  months : List (Int × Nat)
  dataByGuide : List (String × List ((Int × Nat) × ℚ))
  monthlyTotals : List ((Int × Nat) × Totals)
  initialBalance : ℚ
deriving DecidableEq, Repr

def monthsOfYear (selectedYear : Int) : List (Int × Nat) :=
  (List.range 12).map (fun i => (selectedYear, i + 1))

/-- The category × month matrix of MonthlyFlowView: a plain accumulation of
every yearly transaction (transfers included) under its resolved display
name. -/
def monthlyDataByGuide (guides : List Guide) (f : AmountField)
    (yearlyTransactions : List Transaction) :
    List (String × List ((Int × Nat) × ℚ)) :=
  yearlyTransactions.foldl (fun acc t =>
    mupd acc (guideNameOf guides t.guide) []
      (fun gd => mupdAdd gd t.date.monthKey (t.amt f))) []

def monthlyFlowData (guides : List Guide) (transactions : List Transaction)
    (selectedYear : Int) (f : AmountField) : MonthlyFlowResult :=
  let months := monthsOfYear selectedYear
  let initialBalance :=
    ((transactions.filter (fun t => decide (t.date.year < selectedYear))).map
      (·.amt f)).sum
  let yearlyTransactions :=
    transactions.filter (fun t => decide (t.date.year = selectedYear))
  let dataByGuide := monthlyDataByGuide guides f yearlyTransactions
  let monthlyTotals :=
    singlePassTotals months (fun t => t.date.monthKey) f yearlyTransactions
  ⟨months, dataByGuide, monthlyTotals, initialBalance⟩

/-! ## Week bucketing (RealWeeklyFlowView.getWeekStartDate) -/

/-- `getWeekStartDate`: the Saturday on or before the parsed date, as a
normalized date string.  The source's invalid-date branch falls back to the
Saturday of the *current* (ambient) date; that branch is rendered here as
`none`. -/
def getWeekStartDate (s : String) : Option String :=
  match parseDateString s with
  | none => none
  | some dt =>
    let days := dt.toDays
    let offset := (dayOfWeekFromDays days + 1) % 7
    some (printDate (civilFromDays (days - offset)))

/-! ## ForecastedMonthlyFlowView -/

structure ForecastCell where
  amount : ℚ
  isForecast : Bool
deriving DecidableEq, Repr

structure VatLine where
  name : String
  amount : ℚ
deriving DecidableEq, Repr

@[ext]
structure VatDetailData where
  incomes : List VatLine
  expenses : List VatLine
  totalIncome : ℚ
  totalExpense : ℚ
  ivaCobrado : ℚ
  ivaAcreditable : ℚ
  netVat : ℚ
deriving DecidableEq, Repr

structure FTotals where
  income : ℚ
  expense : ℚ
  net : ℚ
  isForecast : Bool
deriving DecidableEq, Repr

/-- JS word character (`\w` is ASCII `[A-Za-z0-9_]`). -/
def isWordChar (c : Char) : Bool :=
  c.isAlphanum || c == '_'

/-- Does `\bP\d{4}\b` match at the head of `cs`, given the character just
before it (if any)? -/
def opCodeHere (prev : Option Char) (cs : List Char) : Bool :=
  match cs with
  | 'P' :: d1 :: d2 :: d3 :: d4 :: rest =>
    (match prev with
     | some c => !isWordChar c
     | none => true)
    && d1.isDigit && d2.isDigit && d3.isDigit && d4.isDigit
    && (match rest with
        | [] => true
        | c :: _ => !isWordChar c)
  | _ => false

def opCodeScan (prev : Option Char) (cs : List Char) : Bool :=
  match cs with
  | [] => false
  | c :: rest => opCodeHere prev (c :: rest) || opCodeScan (some c) rest

/-- Test for the operating-income pattern `/\bP\d{4}\b/` on a guide name. -/
def hasOperatingIncomeCode (name : String) : Bool :=
  opCodeScan none name.toList

/-- The inputs of the forecasted monthly flow computation.  `rand` is the
stream of raw `Math.random()` draws, consumed in call order. -/
structure ForecastConfig where
  guides : List Guide
  transactions : List Transaction
  selectedYear : Int
  excludedGuideIds : List String
  field : AmountField
  rand : Nat → ℚ

def activeGuidesOf (cfg : ForecastConfig) : List Guide :=
  cfg.guides.filter (fun g =>
    !g.isInactiveForForecast && !(cfg.excludedGuideIds.contains g.id))

def activeGuideIdsOf (cfg : ForecastConfig) : List String :=
  (activeGuidesOf cfg).map (·.id)

def initialBalanceGuideIdOf (cfg : ForecastConfig) : Option String :=
  (cfg.guides.find? (fun g => g.name = "0-Saldo Inicial")).map (·.id)

def aguinaldoGuideIdOf (cfg : ForecastConfig) : Option String :=
  (cfg.guides.find? (fun g => g.name = "20-Aguinaldo")).map (·.id)

def nominaGuideIdOf (cfg : ForecastConfig) : Option String :=
  (cfg.guides.find? (fun g => g.name = "19-Nómina")).map (·.id)

def ptuGuideIdOf (cfg : ForecastConfig) : Option String :=
  (cfg.guides.find? (fun g => g.name = "22-PTU Garantizada")).map (·.id)

def vatGuideIdOf (cfg : ForecastConfig) : Option String :=
  (cfg.guides.find? (fun g => g.name.startsWith "29-")).map (·.id)

def operatingIncomeGuideIdsOf (cfg : ForecastConfig) : List String :=
  (cfg.guides.filter (fun g => hasOperatingIncomeCode g.name)).map (·.id)

def excludedExpenseNamesForVat : List String :=
  ["19-Nómina", "20-Aguinaldo", "22-PTU Garantizada", "25-Nómina generico",
   "23-Finiquitos", "26-IMSS, RCV e INFONAVIT",
   "27-Impuesto Sobre Remuneraciones", "28-ISR Personas Morales",
   "30-ISR Retenido", "31-IVA Retenido", "32-Otros impuestos federales",
   "59-American Express Company mexic", "65-ISR por pagar",
   "66-IVA por pagar", "67-Retenidos por pagar",
   "68-IMSS, RCV e INFONAVIT por pagar",
   "69-Impuesto Sobre Remuneraciones por pagar",
   "70-Otros impuestos por pagar", "71-AMEXCO PYPSA Cta. 51003",
   "72-Carbures Europe, S.A (Suc)", "74-Fonacot",
   "75-Gratificacion Garantizada", "76-Gratificacion FA",
   "80-Otros Acreedores por Pagar"]

def excludedExpenseIdsForVatOf (cfg : ForecastConfig) : List String :=
  (cfg.guides.filter (fun g => excludedExpenseNamesForVat.contains g.name)).map
    (·.id)

/-- The date of the last real transaction (`new Date(0)`, 1970-01-01, when
there are none). -/
def lastRealDateOf (cfg : ForecastConfig) : Date :=
  match cfg.transactions with
  | [] => ⟨1970, 1, 1⟩
  | t :: rest =>
    rest.foldl (fun acc x => if acc.toDays < x.date.toDays then x.date else acc)
      t.date

/-- `historyStartDate`: `lastRealDate` shifted back three calendar months. -/
def historyStartDaysOf (cfg : ForecastConfig) : Int :=
  addMonthsDays (lastRealDateOf cfg) (-3)

def historicalTransactionsOf (cfg : ForecastConfig) : List Transaction :=
  cfg.transactions.filter (fun t =>
    !(t.guide == "") && (activeGuideIdsOf cfg).contains t.guide
      && !(some t.guide == initialBalanceGuideIdOf cfg)
      && decide (historyStartDaysOf cfg ≤ t.date.toDays)
      && decide (t.date.toDays ≤ (lastRealDateOf cfg).toDays))

/-- Trailing averages: per-guide sums over the three-month history window,
divided by the number of distinct months that carry any data (minimum 1). -/
def baseMonthlyAveragesOf (cfg : ForecastConfig) : List (String × ℚ) :=
  let hist := historicalTransactionsOf cfg
  if hist.isEmpty then [] else
  let sumsByGuide :=
    hist.foldl (fun acc t => mupdAdd acc t.guide (t.amt cfg.field)) []
  let monthsInHistory := hist.foldl (fun acc t =>
    if acc.contains t.date.monthKey then acc else acc ++ [t.date.monthKey]) []
  let monthCount : ℚ :=
    if 0 < monthsInHistory.length then (monthsInHistory.length : ℚ) else 1
  sumsByGuide.map (fun p => (p.1, p.2 / monthCount))

def isFutureYearOf (cfg : ForecastConfig) : Bool :=
  decide ((lastRealDateOf cfg).year < cfg.selectedYear)

def prevYearMonthsOf (cfg : ForecastConfig) : List (Int × Nat) :=
  monthsOfYear (cfg.selectedYear - 1)

/-- Per-guide totals over the year preceding the selected one: real months
contribute their actual transactions, months beyond the last real date
contribute the trailing average (with the December-only Aguinaldo
special case). -/
def previousYearTotalsOf (cfg : ForecastConfig) : List (String × ℚ) :=
  (prevYearMonthsOf cfg).foldl (fun acc my =>
    if decide ((lastRealDateOf cfg).toDays < monthStartDays my) then
      (baseMonthlyAveragesOf cfg).foldl (fun acc2 p =>
        if !((activeGuideIdsOf cfg).contains p.1)
            || some p.1 == initialBalanceGuideIdOf cfg then acc2
        else if some p.1 == aguinaldoGuideIdOf cfg then
          (if my.2 = 12 then
            match nominaGuideIdOf cfg with
            | some nid =>
              mupdAdd acc2 p.1 (-(|mgetD (baseMonthlyAveragesOf cfg) nid 0| / 2))
            | none => acc2
          else acc2)
        else mupdAdd acc2 p.1 p.2) acc
    else
      (cfg.transactions.filter (fun t =>
        t.date.monthKey == my && (activeGuideIdsOf cfg).contains t.guide
          && !(some t.guide == initialBalanceGuideIdOf cfg))).foldl
        (fun acc2 t =>
          if t.guide == "" then acc2
          else mupdAdd acc2 t.guide (t.amt cfg.field)) acc) []

/-- Year-over-year dampening: when forecasting into a year entirely beyond
the last real year, a naive projection larger in magnitude than a nonzero
prior-year total is replaced by `previousTotal / 12`. -/
def monthlyAveragesOf (cfg : ForecastConfig) : List (String × ℚ) :=
  if isFutureYearOf cfg then
    -- both branches of the source set the same key, so the branch is on
    -- the stored value
    (baseMonthlyAveragesOf cfg).map (fun p =>
      (p.1,
       if |mgetD (previousYearTotalsOf cfg) p.1 0| < |p.2 * 12|
           ∧ mgetD (previousYearTotalsOf cfg) p.1 0 ≠ 0 then
         mgetD (previousYearTotalsOf cfg) p.1 0 / 12
       else p.2))
  else baseMonthlyAveragesOf cfg

/-- One perturbed forecast amount: `originalAmount * (1 + variation)` with
`variation = (Math.random() - 0.5) * 0.4` for a raw draw `v`. -/
def variedForecast (originalAmount v : ℚ) : ℚ :=
  originalAmount * (1 + (v - 0.5) * 0.4)

/-- State threaded through the month loop. -/
structure FState where
  dataByGuide : List (String × List ((Int × Nat) × ForecastCell))
  vatDetailsByMonth : List ((Int × Nat) × VatDetailData)
  forecastCorrection : List (String × ℚ)
  randIdx : Nat
deriving Repr

def setCell (dbg : List (String × List ((Int × Nat) × ForecastCell)))
    (gid : String) (my : Int × Nat) (c : ForecastCell) :
    List (String × List ((Int × Nat) × ForecastCell)) :=
  mupd dbg gid [] (fun gd => mset gd my c)

def addCellAmount (dbg : List (String × List ((Int × Nat) × ForecastCell)))
    (gid : String) (my : Int × Nat) (a : ℚ) :
    List (String × List ((Int × Nat) × ForecastCell)) :=
  mupd dbg gid [] (fun gd =>
    let c := mgetD gd my ⟨0, false⟩
    mset gd my ⟨c.amount + a, c.isForecast⟩)

/-- Store a computed forecast amount only above the `0.01` materiality
threshold. -/
def storeForecastIf (st : FState) (gid : String) (my : Int × Nat) (a : ℚ) :
    FState :=
  if |a| > 0.01 then
    {st with dataByGuide := setCell st.dataByGuide gid my ⟨a, true⟩}
  else st

/-- Forecast of one guide for one forecast month (the body of
`activeGuides.forEach` in the forecast branch). -/
def forecastGuideStep (cfg : ForecastConfig) (my : Int × Nat)
    (isLastForecastMonth : Bool) (st : FState) (g : Guide) : FState :=
  if some g.id == vatGuideIdOf cfg then st
  else
    let isDecember := my.2 = 12
    let isMay := my.2 = 5
    if some g.id == aguinaldoGuideIdOf cfg then
      let amount :=
        if isDecember then
          match nominaGuideIdOf cfg with
          | some nid => -(|mgetD (monthlyAveragesOf cfg) nid 0| / 2)
          | none => 0
        else 0
      storeForecastIf st g.id my amount
    else if some g.id == ptuGuideIdOf cfg then
      let amount :=
        if isMay then
          match nominaGuideIdOf cfg with
          | some nid => -(|mgetD (monthlyAveragesOf cfg) nid 0| / 2)
          | none => 0
        else 0
      storeForecastIf st g.id my amount
    else
      let originalAmount := mgetD (monthlyAveragesOf cfg) g.id 0
      if |originalAmount| < 0.01 then storeForecastIf st g.id my 0
      else if !isLastForecastMonth then
        let variedAmount := variedForecast originalAmount (cfg.rand st.randIdx)
        let error := variedAmount - originalAmount
        storeForecastIf
          {st with
            forecastCorrection := mupdAdd st.forecastCorrection g.id error,
            randIdx := st.randIdx + 1}
          g.id my variedAmount
      else
        let correction := mgetD st.forecastCorrection g.id 0
        storeForecastIf
          {st with forecastCorrection := mdelete st.forecastCorrection g.id}
          g.id my (originalAmount - correction)

/-- Classification of one guide's month entry into the VAT breakdown: the
income side for operating-income guides, the expense side for negative
amounts of guides neither operating-income nor name-excluded. -/
def vatClassifyStep (cfg : ForecastConfig) (my : Int × Nat)
    (vd : VatDetailData) (p : String × List ((Int × Nat) × ForecastCell)) :
    VatDetailData :=
  match mget p.2 my with
  | some cell =>
    if cell.isForecast then
      let gname :=
        match cfg.guides.reverse.find? (fun g => g.id = p.1) with
        | some g => g.name
        | none => "Unknown"
      if (operatingIncomeGuideIdsOf cfg).contains p.1 then
        {vd with incomes := vd.incomes ++ [⟨gname, cell.amount⟩],
                 totalIncome := vd.totalIncome + cell.amount}
      else if decide (cell.amount < 0)
          && !((excludedExpenseIdsForVatOf cfg).contains p.1) then
        {vd with expenses := vd.expenses ++ [⟨gname, cell.amount⟩],
                 totalExpense := vd.totalExpense + cell.amount}
      else vd
    else vd
  | none => vd

/-- Scan the guide data for the month's forecast entries, classifying each
entry in table order. -/
def vatDetailBase (cfg : ForecastConfig) (my : Int × Nat)
    (dbg : List (String × List ((Int × Nat) × ForecastCell))) : VatDetailData :=
  dbg.foldl (vatClassifyStep cfg my) ⟨[], [], 0, 0, 0, 0, 0⟩

/-- Derive the month's VAT line and breakdown from the forecasts of the
other guides, posting both only above the `0.01` threshold. -/
def vatStep (cfg : ForecastConfig) (my : Int × Nat) (st : FState) : FState :=
  match vatGuideIdOf cfg with
  | none => st
  | some vid =>
    if (activeGuideIdsOf cfg).contains vid then
      let vd0 := vatDetailBase cfg my st.dataByGuide
      let ivaCobrado := vd0.totalIncome / 1.16 * 0.16
      let ivaAcreditable := |vd0.totalExpense| / 1.16 * 0.16
      let netVatToPay := ivaCobrado - ivaAcreditable
      let vd := {vd0 with ivaCobrado := ivaCobrado,
                          ivaAcreditable := ivaAcreditable,
                          netVat := -netVatToPay}
      if |vd.netVat| > 0.01 then
        {st with dataByGuide := setCell st.dataByGuide vid my ⟨vd.netVat, true⟩,
                 vatDetailsByMonth := mset st.vatDetailsByMonth my vd}
      else st
    else st

/-- A real (non-forecast) month: accumulate the month's actual
transactions into the guide data. -/
def actualMonthStep (cfg : ForecastConfig) (my : Int × Nat) (st : FState) :
    FState :=
  (cfg.transactions.filter (fun t => t.date.monthKey == my)).foldl
    (fun st t =>
      if t.guide == "" then st
      else {st with
        dataByGuide := addCellAmount st.dataByGuide t.guide my (t.amt cfg.field)})
    st

def monthStep (cfg : ForecastConfig) (st : FState) (my : Int × Nat) : FState :=
  let isForecast := decide ((lastRealDateOf cfg).toDays < monthStartDays my)
  if !isForecast then actualMonthStep cfg my st
  else
    let isLastForecastMonth := my == (cfg.selectedYear, 12)
    vatStep cfg my
      ((activeGuidesOf cfg).foldl (forecastGuideStep cfg my isLastForecastMonth)
        st)

/-- The post-loop totals pass: every stored cell routes by the sign of its
amount. -/
def forecastMonthlyTotals (cfg : ForecastConfig)
    (dbg : List (String × List ((Int × Nat) × ForecastCell))) :
    List ((Int × Nat) × FTotals) :=
  let init := (monthsOfYear cfg.selectedYear).foldl (fun acc my =>
    mset acc my
      ⟨0, 0, 0, decide ((lastRealDateOf cfg).toDays < monthStartDays my)⟩) []
  dbg.foldl (fun tm p =>
    p.2.foldl (fun tm q =>
      mupdIfPresent tm q.1 (fun tot =>
        if 0 < q.2.amount then
          {tot with income := tot.income + q.2.amount, net := tot.net + q.2.amount}
        else
          {tot with expense := tot.expense + q.2.amount,
                    net := tot.net + q.2.amount})) tm) init

structure ForecastFlowResult where
  months : List (Int × Nat)
  dataByGuide : List (String × List ((Int × Nat) × ForecastCell))
  monthlyTotals : List ((Int × Nat) × FTotals)
  initialBalance : ℚ
  vatDetailsByMonth : List ((Int × Nat) × VatDetailData)
deriving Repr

def forecastFlowData (cfg : ForecastConfig) : ForecastFlowResult :=
  let final := (monthsOfYear cfg.selectedYear).foldl (monthStep cfg) ⟨[], [], [], 0⟩
  ⟨monthsOfYear cfg.selectedYear, final.dataByGuide,
   forecastMonthlyTotals cfg final.dataByGuide,
   ((cfg.transactions.filter (fun t =>
     decide (t.date.year < cfg.selectedYear))).map (·.amt cfg.field)).sum,
   final.vatDetailsByMonth⟩

/-- The per-category trace of the stochastic-variation path of the month
loop (the non-seasonal, non-VAT branch): every non-final forecast month
posts `variedForecast A v` and adds the error `varied - A` to the running
correction; the final forecast month posts `A - correction`. -/
def forecastSeriesGo (A corr : ℚ) (vs : List ℚ) : List ℚ :=
  match vs with
  | [] => [A - corr]
  | v :: rest =>
    let varied := variedForecast A v
    varied :: forecastSeriesGo A (corr + (varied - A)) rest

/-- The computed forecast amounts of one category over its `vs.length + 1`
forecast months, `vs` being the raw random draws of the non-final months. -/
def forecastSeries (A : ℚ) (vs : List ℚ) : List ℚ :=
  forecastSeriesGo A 0 vs

/-- The values actually posted into the table: amounts at or below the
`0.01` materiality threshold are not stored. -/
def postedValues (amounts : List ℚ) : List ℚ :=
  amounts.filter (fun a => decide (0.01 < |a|))

/-- The stored amount of guide `gid` in month `my` (0 when no cell is
stored). -/
def cellAmount (r : ForecastFlowResult) (gid : String) (my : Int × Nat) : ℚ :=
  (mgetD (mgetD r.dataByGuide gid []) my ⟨0, false⟩).amount

/-- The forecast months of the selected year (months starting strictly
after the last real transaction date). -/
def forecastMonths (cfg : ForecastConfig) : List (Int × Nat) :=
  (monthsOfYear cfg.selectedYear).filter (fun my =>
    decide ((lastRealDateOf cfg).toDays < monthStartDays my))

/-! ## Reference formulas (specification side) -/

/-- Sum of the selected amounts of the records satisfying `p`. -/
def sumAmtBy (ts : List Transaction) (f : AmountField) (p : Transaction → Bool) :
    ℚ :=
  ((ts.filter p).map (·.amt f)).sum

def isTransfer (t : Transaction) : Bool :=
  decide (t.guide = transferGuideId)

/-- Net of all transfer legs of bucket `b`. -/
def bucketTransferNet {κ : Type} [DecidableEq κ] (key : Transaction → κ)
    (f : AmountField) (ts : List Transaction) (b : κ) : ℚ :=
  sumAmtBy ts f (fun t => isTransfer t && decide (key t = b))

/-- Sum of the `Income`-typed non-transfer amounts of bucket `b`. -/
def bucketIncomeByType {κ : Type} [DecidableEq κ] (key : Transaction → κ)
    (f : AmountField) (ts : List Transaction) (b : κ) : ℚ :=
  sumAmtBy ts f (fun t =>
    !isTransfer t && decide (t.type = TransactionType.Income)
      && decide (key t = b))

/-- Sum of the non-`Income`-typed non-transfer amounts of bucket `b`. -/
def bucketExpenseByType {κ : Type} [DecidableEq κ] (key : Transaction → κ)
    (f : AmountField) (ts : List Transaction) (b : κ) : ℚ :=
  sumAmtBy ts f (fun t =>
    !isTransfer t && !(decide (t.type = TransactionType.Income))
      && decide (key t = b))

/-- Sum of every amount of bucket `b`. -/
def bucketNet {κ : Type} [DecidableEq κ] (key : Transaction → κ)
    (f : AmountField) (ts : List Transaction) (b : κ) : ℚ :=
  sumAmtBy ts f (fun t => decide (key t = b))

/-- The per-bucket value of a category row, and the sum of those values
over all categories of the table. -/
def catSum {γ κ : Type} [DecidableEq κ] (dbg : List (γ × List (κ × ℚ)))
    (b : κ) : ℚ :=
  (dbg.map (fun p => mgetD p.2 b 0)).sum

def keysContain {κ β : Type} [DecidableEq κ] (m : List (κ × β)) (k : κ) :
    Bool :=
  decide (k ∈ m.map (·.1))

/-- The prior-year total of one category, as a closed sum over the twelve
months of the preceding year: a real month contributes the category's
actual transactions, a month beyond the last real date contributes the
category's forecast baseline (its trailing average; the Aguinaldo category
instead contributes only in December, half the negative payroll average). -/
def priorYearTotalSpec (cfg : ForecastConfig) (gid : String) : ℚ :=
  ((prevYearMonthsOf cfg).map (fun my =>
    if (lastRealDateOf cfg).toDays < monthStartDays my then
      (if some gid == aguinaldoGuideIdOf cfg then
        (if keysContain (baseMonthlyAveragesOf cfg) gid ∧ my.2 = 12 then
          match nominaGuideIdOf cfg with
          | some nid => -(|mgetD (baseMonthlyAveragesOf cfg) nid 0| / 2)
          | none => 0
        else 0)
      else mgetD (baseMonthlyAveragesOf cfg) gid 0)
    else
      sumAmtBy cfg.transactions cfg.field (fun t =>
        t.date.monthKey == my && decide (t.guide = gid)))).sum

/-- Resolved display name for the VAT breakdown
(`getGuide(guideId)?.name || "Unknown"`). -/
def vatGuideNameOf (cfg : ForecastConfig) (gid : String) : String :=
  match cfg.guides.reverse.find? (fun g => g.id = gid) with
  | some g => g.name
  | none => "Unknown"

/-- The month's forecast entries classified as VAT income lines: all
forecast values of operating-income categories. -/
def vatIncomeEntriesSpec (cfg : ForecastConfig) (my : Int × Nat)
    (dbg : List (String × List ((Int × Nat) × ForecastCell))) : List VatLine :=
  dbg.filterMap (fun p =>
    match mget p.2 my with
    | some cell =>
      if cell.isForecast && (operatingIncomeGuideIdsOf cfg).contains p.1 then
        some ⟨vatGuideNameOf cfg p.1, cell.amount⟩
      else none
    | none => none)

/-- The month's forecast entries classified as VAT expense lines: negative
forecast values of categories that are neither operating-income categories
nor in the by-name exclusion list. -/
def vatExpenseEntriesSpec (cfg : ForecastConfig) (my : Int × Nat)
    (dbg : List (String × List ((Int × Nat) × ForecastCell))) : List VatLine :=
  dbg.filterMap (fun p =>
    match mget p.2 my with
    | some cell =>
      if cell.isForecast && !((operatingIncomeGuideIdsOf cfg).contains p.1)
          && decide (cell.amount < 0)
          && !((excludedExpenseIdsForVatOf cfg).contains p.1) then
        some ⟨vatGuideNameOf cfg p.1, cell.amount⟩
      else none
    | none => none)

def vatIncomeTotalSpec (cfg : ForecastConfig) (my : Int × Nat)
    (dbg : List (String × List ((Int × Nat) × ForecastCell))) : ℚ :=
  ((vatIncomeEntriesSpec cfg my dbg).map (·.amount)).sum

def vatExpenseTotalSpec (cfg : ForecastConfig) (my : Int × Nat)
    (dbg : List (String × List ((Int × Nat) × ForecastCell))) : ℚ :=
  ((vatExpenseEntriesSpec cfg my dbg).map (·.amount)).sum

/-- The VAT line value the month's `vatStep` posts when it posts one. -/
def netVatSpec (cfg : ForecastConfig) (my : Int × Nat)
    (dbg : List (String × List ((Int × Nat) × ForecastCell))) : ℚ :=
  -(vatIncomeTotalSpec cfg my dbg / 1.16 * 0.16
    - |vatExpenseTotalSpec cfg my dbg| / 1.16 * 0.16)

/-- The creditable-VAT base exactly as the claim words it — “negative
forecast values of categories not in the fixed by-name exclusion list” —
i.e. with no exemption of operating-income categories.  Kept to compare
the claim's formula against the code's. -/
def claimVatExpenseTotal (cfg : ForecastConfig) (my : Int × Nat)
    (dbg : List (String × List ((Int × Nat) × ForecastCell))) : ℚ :=
  (dbg.filterMap (fun p =>
    match mget p.2 my with
    | some cell =>
      if cell.isForecast && decide (cell.amount < 0)
          && !((excludedExpenseIdsForVatOf cfg).contains p.1) then
        some cell.amount
      else none
    | none => none)).sum

/-- The VAT line value the claim's formula predicts. -/
def claimNetVat (cfg : ForecastConfig) (my : Int × Nat)
    (dbg : List (String × List ((Int × Nat) × ForecastCell))) : ℚ :=
  -(vatIncomeTotalSpec cfg my dbg / 1.16 * 0.16
    - |claimVatExpenseTotal cfg my dbg| / 1.16 * 0.16)

/-! ## Concrete example inputs -/

/-- One active, non-seasonal category whose trailing average is exactly the
materiality threshold 0.01, with the last real transaction in January of
the selected year and a constant random draw of 0.5 (variation 0). -/
def exCfgReconcile : ForecastConfig :=
  { guides := [{id := "1", name := "1-G"}],
    transactions :=
      [{guide := "1", date := ⟨2025, 1, 10⟩, amountMN := 1/100, type := .Income}],
    selectedYear := 2025, excludedGuideIds := [], field := .mn,
    rand := fun _ => 1/2 }

/-- An operating-income category (`P1234` in its name) with a negative
trailing average, together with a VAT category. -/
def exCfgVat : ForecastConfig :=
  { guides := [{id := "1", name := "40-Ventas P1234"},
               {id := "2", name := "29-IVA"}],
    transactions :=
      [{guide := "1", date := ⟨2025, 1, 10⟩, amountMN := -116, type := .Expense}],
    selectedYear := 2025, excludedGuideIds := [], field := .mn,
    rand := fun _ => 1/2 }

/-- Two same-day records whose resolved display names collide with the
transfer category's: the catalog is empty, so both guide ids `"7"` and
`"13"` resolve to the fallback name. -/
def exCollisionTs : List Transaction :=
  [{guide := "7", date := ⟨2024, 1, 5⟩, amountMN := 100, type := .Income},
   {guide := "13", date := ⟨2024, 1, 5⟩, amountMN := 50, type := .Income}]

/-- A single transfer leg with a negative amount. -/
def exNegTransferTs : List Transaction :=
  [{guide := "13", date := ⟨2024, 3, 5⟩, amountMN := -50, type := .Expense}]

def exTransferGuides : List Guide :=
  [{id := "13", name := "13-Transferencias"}]

/-- A future selected year whose naive projection (1200 × 12) exceeds the
prior year's actual total (1320), triggering the dampening. -/
def exCfgDampen : ForecastConfig :=
  { guides := [{id := "1", name := "1-G"}],
    transactions :=
      [{guide := "1", date := ⟨2024, 12, 20⟩, amountMN := 1200, type := .Income},
       {guide := "1", date := ⟨2024, 1, 10⟩, amountMN := 120, type := .Income}],
    selectedYear := 2025, excludedGuideIds := [], field := .mn,
    rand := fun _ => 1/2 }

/-- A month state holding one negative operating-income forecast entry,
the input of the VAT derivation step. -/
def exVatState : FState :=
  ⟨[("1", [((2025, 2), ⟨-116, true⟩)])], [], [], 0⟩

/-- The worked scenario of the specification: one categorized income and a
transfer that nets to zero across two days. -/
def exScenarioGuides : List Guide :=
  [{id := "1", name := "1-Ventas"}, {id := "13", name := "13-Transferencias"}]

def exScenarioTs : List Transaction :=
  [{guide := "1", date := ⟨2024, 1, 5⟩, amountMN := 100, type := .Income},
   {guide := "13", date := ⟨2024, 1, 5⟩, amountMN := 50, type := .Income},
   {guide := "13", date := ⟨2024, 1, 6⟩, amountMN := -50, type := .Expense}]

/-! ## General lemmas on the dictionary model -/

theorem mget_mset_self {κ β : Type} [DecidableEq κ] (m : List (κ × β)) (k : κ)
    (v : β) : mget (mset m k v) k = some v := by
  induction m with
  | nil => simp [mset, mget]
  | cons p rest ih =>
    by_cases h : p.1 = k
    · simp [mset, h, mget]
    · simp [mset, h, mget, ih]

theorem mget_mset_ne {κ β : Type} [DecidableEq κ] (m : List (κ × β))
    (k k' : κ) (v : β) (h : k' ≠ k) : mget (mset m k v) k' = mget m k' := by
  induction m with
  | nil =>
    have hk : ¬ (k = k') := fun hh => h hh.symm
    simp [mset, mget, hk]
  | cons p rest ih =>
    by_cases hp : p.1 = k
    · subst hp
      have hk : ¬ (p.1 = k') := fun hh => h hh.symm
      simp [mset, mget, hk]
    · simp [mset, hp, mget, ih]

theorem mget_mupdIfPresent_self {κ β : Type} [DecidableEq κ]
    (m : List (κ × β)) (k : κ) (f : β → β) :
    mget (mupdIfPresent m k f) k = (mget m k).map f := by
  unfold mupdIfPresent
  cases h : mget m k with
  | none => simp [h]
  | some v => simp [h, mget_mset_self]

theorem mget_mupdIfPresent_ne {κ β : Type} [DecidableEq κ]
    (m : List (κ × β)) (k k' : κ) (f : β → β) (h : k' ≠ k) :
    mget (mupdIfPresent m k f) k' = mget m k' := by
  unfold mupdIfPresent
  cases hh : mget m k with
  | none => rfl
  | some v => simp [mget_mset_ne _ _ _ _ h]

theorem mget_mupd_self {κ β : Type} [DecidableEq κ] (m : List (κ × β))
    (k : κ) (d : β) (f : β → β) :
    mget (mupd m k d f) k = some (f (mgetD m k d)) :=
  mget_mset_self m k _

theorem mget_mupd_ne {κ β : Type} [DecidableEq κ] (m : List (κ × β))
    (k k' : κ) (d : β) (f : β → β) (h : k' ≠ k) :
    mget (mupd m k d f) k' = mget m k' :=
  mget_mset_ne m k k' _ h

theorem mgetD_mupdAdd {κ : Type} [DecidableEq κ] (m : List (κ × ℚ))
    (k k' : κ) (a : ℚ) :
    mgetD (mupdAdd m k a) k' 0 = mgetD m k' 0 + if k' = k then a else 0 := by
  by_cases h : k' = k
  · subst h; simp [mupdAdd, mgetD, mget_mset_self]
  · simp [mupdAdd, mgetD, mget_mset_ne _ _ _ _ h, h]

theorem foldl_pres {α σ : Type} (I : σ → Prop) (f : σ → α → σ) :
    ∀ (xs : List α), (∀ s x, x ∈ xs → I s → I (f s x)) →
    ∀ s, I s → I (xs.foldl f s) := by
  intro xs
  induction xs with
  | nil => intro _ s hs; exact hs
  | cons x rest ih =>
    intro hf s hs
    exact ih (fun s2 y hy => hf s2 y (List.mem_cons_of_mem _ hy)) _
      (hf s x (List.mem_cons_self _ _) hs)

/-- Folding a step that changes the measure `Φ` by `g x` (as long as the
invariant `I` holds) changes it by the sum of the `g x`. -/
theorem foldl_additive {α σ : Type} (I : σ → Prop) (Φ : σ → ℚ) (f : σ → α → σ)
    (g : α → ℚ) :
    ∀ (xs : List α), (∀ s x, x ∈ xs → I s → I (f s x)) →
    (∀ s x, x ∈ xs → I s → Φ (f s x) = Φ s + g x) →
    ∀ s, I s → Φ (xs.foldl f s) = Φ s + (xs.map g).sum := by
  intro xs
  induction xs with
  | nil => intro _ _ s _; simp
  | cons x rest ih =>
    intro hI h s hs
    simp only [List.foldl_cons, List.map_cons, List.sum_cons]
    rw [ih (fun s2 y hy => hI s2 y (List.mem_cons_of_mem _ hy))
      (fun s2 y hy => h s2 y (List.mem_cons_of_mem _ hy)) _
      (hI s x (List.mem_cons_self _ _) hs),
      h s x (List.mem_cons_self _ _) hs]
    ring

theorem foldl_pair {α γ δ : Type} (f : γ → α → γ) (g : δ → α → δ)
    (xs : List α) : ∀ (a : γ) (b : δ),
    xs.foldl (fun st x => (f st.1 x, g st.2 x)) (a, b)
      = (xs.foldl f a, xs.foldl g b) := by
  induction xs with
  | nil => intro a b; rfl
  | cons x rest ih => intro a b; exact ih (f a x) (g b x)

theorem sum_map_ite {α : Type} (xs : List α) (c : α → Bool) (v : α → ℚ) :
    (xs.map (fun x => if c x then v x else 0)).sum
      = ((xs.filter c).map v).sum := by
  induction xs with
  | nil => rfl
  | cons x rest ih =>
    by_cases h : c x <;> simp [h, ih, List.filter_cons]

theorem sum_map_add {α : Type} (xs : List α) (f g : α → ℚ) :
    (xs.map (fun x => f x + g x)).sum = (xs.map f).sum + (xs.map g).sum := by
  induction xs with
  | nil => simp
  | cons x rest ih => simp [ih]; ring

theorem keys_mset {κ β : Type} [DecidableEq κ] (m : List (κ × β)) (k : κ)
    (v : β) :
    (mset m k v).map (·.1)
      = if k ∈ m.map (·.1) then m.map (·.1) else m.map (·.1) ++ [k] := by
  induction m with
  | nil => simp [mset]
  | cons p rest ih =>
    by_cases h : p.1 = k
    · subst h; simp [mset]
    · by_cases hm : k ∈ rest.map (·.1) <;>
        simp [mset, h, ih, hm, Ne.symm h]

theorem nodupKeys_mset {κ β : Type} [DecidableEq κ] (m : List (κ × β))
    (k : κ) (v : β) (h : NodupKeys m) : NodupKeys (mset m k v) := by
  unfold NodupKeys at *
  rw [keys_mset]
  by_cases hm : k ∈ m.map (·.1)
  · simpa [hm] using h
  · simp only [if_neg hm, List.nodup_append, List.nodup_cons, List.nodup_nil]
    refine ⟨h, by simp, ?_⟩
    intro a ha hak
    simp at hak
    exact hm (hak ▸ ha)

theorem nodupKeys_mupdAdd {κ : Type} [DecidableEq κ] (m : List (κ × ℚ))
    (k : κ) (a : ℚ) (h : NodupKeys m) : NodupKeys (mupdAdd m k a) :=
  nodupKeys_mset m k _ h

theorem keySum_cons {κ : Type} [DecidableEq κ] (p : κ × ℚ)
    (rest : List (κ × ℚ)) (k : κ) :
    keySum (p :: rest) k = (if p.1 = k then p.2 else 0) + keySum rest k := by
  by_cases h : p.1 = k <;> simp [keySum, List.filter_cons, h]

theorem keySum_of_not_mem {κ : Type} [DecidableEq κ] (m : List (κ × ℚ))
    (k : κ) (h : k ∉ m.map (·.1)) : keySum m k = 0 := by
  induction m with
  | nil => rfl
  | cons p rest ih =>
    have h1 : ¬ (p.1 = k) := by
      intro hh; exact h (by simp [hh])
    have h2 : k ∉ rest.map (·.1) := by
      intro hh; exact h (by simp [hh])
    rw [keySum_cons, if_neg h1, ih h2, zero_add]

theorem mgetD_of_not_mem {κ : Type} [DecidableEq κ] (m : List (κ × ℚ))
    (k : κ) (h : k ∉ m.map (·.1)) : mgetD m k 0 = 0 := by
  induction m with
  | nil => rfl
  | cons p rest ih =>
    have h1 : ¬ (p.1 = k) := by
      intro hh; exact h (by simp [hh])
    have h2 : k ∉ rest.map (·.1) := by
      intro hh; exact h (by simp [hh])
    simpa [mgetD, mget, h1] using ih h2

theorem keySum_eq_mgetD {κ : Type} [DecidableEq κ] (m : List (κ × ℚ))
    (k : κ) (h : NodupKeys m) : keySum m k = mgetD m k 0 := by
  induction m with
  | nil => rfl
  | cons p rest ih =>
    have hn := List.nodup_cons.mp h
    by_cases hp : p.1 = k
    · subst hp
      rw [keySum_cons, if_pos rfl, keySum_of_not_mem rest p.1 hn.1]
      simp [mgetD, mget]
    · rw [keySum_cons, if_neg hp, ih hn.2, zero_add]
      simp [mgetD, mget, hp]

theorem catSum_mset {γ κ : Type} [DecidableEq γ] [DecidableEq κ]
    (dbg : List (γ × List (κ × ℚ))) (k : γ) (v : List (κ × ℚ)) (b : κ) :
    catSum (mset dbg k v) b
      = catSum dbg b + mgetD v b 0 - mgetD (mgetD dbg k []) b 0 := by
  induction dbg with
  | nil => simp [mset, catSum, mgetD, mget]
  | cons p rest ih =>
    by_cases hp : p.1 = k
    · subst hp
      simp [mset, catSum, mgetD, mget]
      ring
    · simp [mset, hp, catSum, mgetD, mget] at *
      rw [ih]
      ring

theorem catSum_mupd {γ κ : Type} [DecidableEq γ] [DecidableEq κ]
    (dbg : List (γ × List (κ × ℚ))) (k : γ) (f : List (κ × ℚ) → List (κ × ℚ))
    (b : κ) :
    catSum (mupd dbg k [] f) b
      = catSum dbg b + mgetD (f (mgetD dbg k [])) b 0
        - mgetD (mgetD dbg k []) b 0 :=
  catSum_mset dbg k _ b

theorem mget_foldl_mset_untouched {κ β : Type} [DecidableEq κ]
    (xs : List (κ × β)) (b : κ) (h : ∀ p ∈ xs, p.1 ≠ b) :
    ∀ gd, mget (xs.foldl (fun gd p => mset gd p.1 p.2) gd) b = mget gd b := by
  induction xs with
  | nil => intro gd; rfl
  | cons p rest ih =>
    intro gd
    rw [List.foldl_cons, ih (fun q hq => h q (List.mem_cons_of_mem _ hq)),
      mget_mset_ne _ _ _ _ (fun hh => (h p (List.mem_cons_self _ _)) hh.symm)]

theorem mgetD_foldl_mset_general {κ : Type} [DecidableEq κ]
    (xs : List (κ × ℚ)) (b : κ) (h : NodupKeys xs) :
    ∀ gd, mgetD (xs.foldl (fun gd p => mset gd p.1 p.2) gd) b 0
      = if b ∈ xs.map (·.1) then mgetD xs b 0 else mgetD gd b 0 := by
  induction xs with
  | nil => intro gd; simp
  | cons p rest ih =>
    intro gd
    have hn := List.nodup_cons.mp h
    rw [List.foldl_cons, ih hn.2]
    by_cases hb : b ∈ rest.map (·.1)
    · have hpb : ¬ (p.1 = b) := by
        intro hh
        apply hn.1
        show p.1 ∈ rest.map (·.1)
        rw [hh]; exact hb
      simp [hb, mgetD, mget, hpb]
    · by_cases hp : p.1 = b
      · subst hp
        simp [hb, mgetD, mget, mget_mset_self]
      · have hp2 : ¬ (b = p.1) := fun hh => hp hh.symm
        simp [hb, hp, hp2, mgetD, mget,
          mget_mset_ne gd p.1 b _ hp2]

/-- Value at `b` of the map rebuilt by writing every entry of `xs` in
order into an empty map: with distinct keys this is the value of `xs`
itself at `b`. -/
theorem mgetD_foldl_mset {κ : Type} [DecidableEq κ] (xs : List (κ × ℚ))
    (b : κ) (h : NodupKeys xs) :
    mgetD (xs.foldl (fun gd p => mset gd p.1 p.2) []) b 0 = mgetD xs b 0 := by
  rw [mgetD_foldl_mset_general xs b h]
  by_cases hb : b ∈ xs.map (·.1)
  · rw [if_pos hb]
  · rw [if_neg hb, mgetD_of_not_mem xs b hb]
    rfl

theorem isSome_mupdIfPresent {κ β : Type} [DecidableEq κ] (m : List (κ × β))
    (k k' : κ) (f : β → β) :
    (mget (mupdIfPresent m k f) k').isSome = (mget m k').isSome := by
  by_cases h : k' = k
  · subst h
    rw [mget_mupdIfPresent_self]
    cases mget m k' <;> rfl
  · rw [mget_mupdIfPresent_ne _ _ _ _ h]

theorem mget_eq_some_mgetD {κ β : Type} [DecidableEq κ] (m : List (κ × β))
    (k : κ) (d : β) (h : (mget m k).isSome = true) :
    mget m k = some (mgetD m k d) := by
  cases hm : mget m k with
  | none => rw [hm] at h; cases h
  | some v => simp [mgetD, hm]

theorem mget_initTotals_general {κ : Type} [DecidableEq κ] (buckets : List κ)
    (b : κ) : ∀ acc,
    mget (buckets.foldl (fun acc b2 => mset acc b2 Totals.zero) acc) b
      = if b ∈ buckets then some Totals.zero else mget acc b := by
  induction buckets with
  | nil => intro acc; simp
  | cons x rest ih =>
    intro acc
    rw [List.foldl_cons, ih]
    by_cases hb : b ∈ rest
    · simp [hb]
    · by_cases hx : b = x
      · subst hx
        simp [hb, mget_mset_self]
      · simp [hb, hx, mget_mset_ne acc x b _ hx]

theorem mget_initTotals {κ : Type} [DecidableEq κ] (buckets : List κ)
    (b : κ) :
    mget (initTotals buckets) b
      = if b ∈ buckets then some Totals.zero else none := by
  unfold initTotals
  rw [mget_initTotals_general]
  by_cases hb : b ∈ buckets <;> simp [hb, mget]

/-- Closed form of the single-pass totals of MonthlyFlowView: at every
bucket of the table, income is the `Income`-typed non-transfer sum plus
the transfer net, expense is the non-`Income`-typed non-transfer sum, and
net is the sum of every amount of the bucket. -/
theorem mget_singlePassTotals {κ : Type} [DecidableEq κ] (buckets : List κ)
    (key : Transaction → κ) (f : AmountField) (ts : List Transaction) (b : κ)
    (hb : b ∈ buckets) :
    mget (singlePassTotals buckets key f ts) b
      = some ⟨bucketIncomeByType key f ts b + bucketTransferNet key f ts b,
              bucketExpenseByType key f ts b,
              bucketNet key f ts b⟩ := by
  unfold singlePassTotals
  have hinit : (mget (initTotals buckets) b).isSome = true := by
    rw [mget_initTotals, if_pos hb]; rfl
  have hpres : ∀ (s : List (κ × Totals)) (t : Transaction),
      (mget s b).isSome = true →
      (mget (mupdIfPresent s (key t) (fun tot =>
        if t.guide = transferGuideId then
          ⟨tot.income + t.amt f, tot.expense, tot.net + t.amt f⟩
        else routeByType t f tot)) b).isSome = true := by
    intro s t hs
    rw [isSome_mupdIfPresent]; exact hs
  have hchar : ∀ (s : List (κ × Totals)) (t : Transaction),
      (mget s b).isSome = true →
      mgetD (mupdIfPresent s (key t) (fun tot =>
        if t.guide = transferGuideId then
          ⟨tot.income + t.amt f, tot.expense, tot.net + t.amt f⟩
        else routeByType t f tot)) b Totals.zero
      = Totals.add3 (mgetD s b Totals.zero)
          ((if (isTransfer t && decide (key t = b)) then t.amt f else 0)
            + (if (!isTransfer t && decide (t.type = TransactionType.Income)
                  && decide (key t = b)) then t.amt f else 0))
          (if (!isTransfer t && !(decide (t.type = TransactionType.Income))
                && decide (key t = b)) then t.amt f else 0)
          (if decide (key t = b) then t.amt f else 0) := by
    intro s t hs
    obtain ⟨tot, htot⟩ := Option.isSome_iff_exists.mp hs
    by_cases hk : key t = b
    · rw [mgetD, hk, mget_mupdIfPresent_self, htot]
      by_cases hg : t.guide = transferGuideId
      · simp [htot, hg, isTransfer, hk, mgetD, Totals.add3]
      · cases htyp : t.type <;>
          simp [htot, hg, htyp, isTransfer, hk, mgetD, Totals.add3, routeByType]
    · have hk2 : b ≠ key t := fun hh => hk hh.symm
      rw [mgetD, mget_mupdIfPresent_ne _ _ _ _ hk2, ← mgetD]
      simp [hk, Totals.add3]
  have hI := foldl_pres (fun s => (mget s b).isSome = true) _ ts
    (fun s t _ => hpres s t) (initTotals buckets) hinit
  have hinc := foldl_additive (fun s => (mget s b).isSome = true)
    (fun s => (mgetD s b Totals.zero).income) _
    (fun t => (if (isTransfer t && decide (key t = b)) then t.amt f else 0)
      + (if (!isTransfer t && decide (t.type = TransactionType.Income)
            && decide (key t = b)) then t.amt f else 0))
    ts (fun s t _ => hpres s t)
    (fun s t _ hs => by dsimp only; rw [hchar s t hs]; rfl)
    (initTotals buckets) hinit
  have hexp := foldl_additive (fun s => (mget s b).isSome = true)
    (fun s => (mgetD s b Totals.zero).expense) _
    (fun t => if (!isTransfer t && !(decide (t.type = TransactionType.Income))
        && decide (key t = b)) then t.amt f else 0)
    ts (fun s t _ => hpres s t)
    (fun s t _ hs => by dsimp only; rw [hchar s t hs]; simp [Totals.add3])
    (initTotals buckets) hinit
  have hnet := foldl_additive (fun s => (mget s b).isSome = true)
    (fun s => (mgetD s b Totals.zero).net) _
    (fun t => if decide (key t = b) then t.amt f else 0)
    ts (fun s t _ => hpres s t)
    (fun s t _ hs => by dsimp only; rw [hchar s t hs]; rfl)
    (initTotals buckets) hinit
  dsimp only at hI hinc hexp hnet
  have hinit2 : mgetD (initTotals buckets) b Totals.zero = Totals.zero := by
    rw [mgetD, mget_initTotals, if_pos hb]; rfl
  rw [hinit2] at hinc hexp hnet
  rw [mget_eq_some_mgetD _ b Totals.zero hI]
  congr 1
  refine Totals.ext ?_ ?_ ?_
  · rw [hinc, sum_map_add, sum_map_ite, sum_map_ite]
    show (0:ℚ) + _ = _
    rw [zero_add, add_comm]
    rfl
  · rw [hexp, sum_map_ite]
    show (0:ℚ) + _ = _
    rw [zero_add]
    rfl
  · rw [hnet, sum_map_ite]
    show (0:ℚ) + _ = _
    rw [zero_add]
    rfl

theorem Totals.add3_zero (t : Totals) : t.add3 0 0 0 = t := by
  simp [Totals.add3]

theorem sum_map_congr {α : Type} (xs : List α) (f g : α → ℚ)
    (h : ∀ x, f x = g x) : (xs.map f).sum = (xs.map g).sum := by
  induction xs with
  | nil => rfl
  | cons x rest ih => simp [h x, ih]

/-- Every bucket's total net splits into its non-transfer part and its
transfer net. -/
theorem bucketNet_split {κ : Type} [DecidableEq κ] (key : Transaction → κ)
    (f : AmountField) (ts : List Transaction) (b : κ) :
    bucketNet key f ts b
      = sumAmtBy ts f (fun t => !isTransfer t && decide (key t = b))
        + bucketTransferNet key f ts b := by
  unfold bucketNet bucketTransferNet sumAmtBy
  rw [← sum_map_ite, ← sum_map_ite, ← sum_map_ite, ← sum_map_add]
  apply sum_map_congr
  intro t
  by_cases h1 : isTransfer t <;> by_cases h2 : decide (key t = b) = true <;>
    simp [h1, h2]

/-- The non-transfer part of a bucket's net splits by `type`. -/
theorem nonTransferNet_split {κ : Type} [DecidableEq κ] (key : Transaction → κ)
    (f : AmountField) (ts : List Transaction) (b : κ) :
    sumAmtBy ts f (fun t => !isTransfer t && decide (key t = b))
      = bucketIncomeByType key f ts b + bucketExpenseByType key f ts b := by
  unfold bucketIncomeByType bucketExpenseByType sumAmtBy
  rw [← sum_map_ite, ← sum_map_ite, ← sum_map_ite, ← sum_map_add]
  apply sum_map_congr
  intro t
  by_cases h1 : isTransfer t <;>
    by_cases h2 : decide (t.type = TransactionType.Income) = true <;>
    by_cases h3 : decide (key t = b) = true <;>
    simp [h1, h2, h3]

theorem mgetD_netTransfersBy {κ : Type} [DecidableEq κ] (key : Transaction → κ)
    (f : AmountField) (ts : List Transaction) (b : κ) :
    mgetD (netTransfersBy key f ts) b 0 = bucketTransferNet key f ts b := by
  unfold netTransfersBy
  have h := foldl_additive (fun _ => True) (fun m => mgetD m b 0)
    (fun acc t =>
      if t.guide = transferGuideId then mupdAdd acc (key t) (t.amt f) else acc)
    (fun t => if (isTransfer t && decide (key t = b)) then t.amt f else 0) ts
    (fun _ _ _ _ => trivial)
    (fun s t _ _ => by
      dsimp only
      by_cases hg : t.guide = transferGuideId
      · rw [if_pos hg, mgetD_mupdAdd]
        by_cases hk : key t = b
        · rw [if_pos hk.symm]
          have hcnd : (isTransfer t && decide (key t = b)) = true := by
            simp [isTransfer, hg, hk]
          rw [if_pos hcnd]
        · have h2 : ¬ (b = key t) := fun hh => hk hh.symm
          simp [hg, hk, isTransfer, h2]
      · rw [if_neg hg]
        simp [hg, isTransfer])
    [] trivial
  dsimp only at h
  rw [h, show mgetD ([] : List (κ × ℚ)) b 0 = 0 from rfl, zero_add, sum_map_ite]
  rfl

theorem nodupKeys_netTransfersBy {κ : Type} [DecidableEq κ]
    (key : Transaction → κ) (f : AmountField) (ts : List Transaction) :
    NodupKeys (netTransfersBy key f ts) := by
  unfold netTransfersBy
  exact foldl_pres NodupKeys _ ts
    (fun s t _ hsn => by
      by_cases hg : t.guide = transferGuideId
      · rw [if_pos hg]; exact nodupKeys_mupdAdd _ _ _ hsn
      · rwa [if_neg hg])
    [] (by simp [NodupKeys])

/-- Closed form of the two-phase totals of DailyFlowView: identical to the
single-pass closed form — income is the `Income`-typed non-transfer sum
plus the transfer net, expense the non-`Income`-typed non-transfer sum,
net the sum of every amount of the bucket. -/
theorem mget_twoPhaseTotals {κ : Type} [DecidableEq κ] (buckets : List κ)
    (key : Transaction → κ) (f : AmountField) (ts : List Transaction) (b : κ)
    (hb : b ∈ buckets) :
    mget (twoPhaseTotals buckets key f ts) b
      = some ⟨bucketIncomeByType key f ts b + bucketTransferNet key f ts b,
              bucketExpenseByType key f ts b,
              bucketNet key f ts b⟩ := by
  unfold twoPhaseTotals
  have hinit : (mget (initTotals buckets) b).isSome = true := by
    rw [mget_initTotals, if_pos hb]; rfl
  have hpres : ∀ (s : List (κ × Totals)) (t : Transaction),
      (mget s b).isSome = true →
      (mget (if t.guide ≠ transferGuideId then
        mupdIfPresent s (key t) (routeByType t f) else s) b).isSome = true := by
    intro s t hs
    by_cases hg : t.guide ≠ transferGuideId
    · rw [if_pos hg, isSome_mupdIfPresent]; exact hs
    · rwa [if_neg hg]
  have hchar : ∀ (s : List (κ × Totals)) (t : Transaction),
      (mget s b).isSome = true →
      mgetD (if t.guide ≠ transferGuideId then
        mupdIfPresent s (key t) (routeByType t f) else s) b Totals.zero
      = Totals.add3 (mgetD s b Totals.zero)
          (if (!isTransfer t && decide (t.type = TransactionType.Income)
              && decide (key t = b)) then t.amt f else 0)
          (if (!isTransfer t && !(decide (t.type = TransactionType.Income))
              && decide (key t = b)) then t.amt f else 0)
          (if (!isTransfer t && decide (key t = b)) then t.amt f else 0) := by
    intro s t hs
    obtain ⟨tot, htot⟩ := Option.isSome_iff_exists.mp hs
    by_cases hg : t.guide = transferGuideId
    · rw [if_neg (fun hh => hh hg)]
      simp [isTransfer, hg, Totals.add3_zero]
    · rw [if_pos hg]
      by_cases hk : key t = b
      · rw [mgetD, hk, mget_mupdIfPresent_self, htot]
        cases htyp : t.type <;>
          simp [htot, hg, htyp, isTransfer, hk, mgetD, Totals.add3, routeByType]
      · have hk2 : b ≠ key t := fun hh => hk hh.symm
        rw [mgetD, mget_mupdIfPresent_ne _ _ _ _ hk2, ← mgetD]
        simp [hk, Totals.add3]
  have hI := foldl_pres (fun s => (mget s b).isSome = true) _ ts
    (fun s t _ => hpres s t) (initTotals buckets) hinit
  have hinc := foldl_additive (fun s => (mget s b).isSome = true)
    (fun s => (mgetD s b Totals.zero).income) _
    (fun t => if (!isTransfer t && decide (t.type = TransactionType.Income)
        && decide (key t = b)) then t.amt f else 0)
    ts (fun s t _ => hpres s t) (fun s t _ hs => by dsimp only; rw [hchar s t hs]; rfl)
    (initTotals buckets) hinit
  have hexp := foldl_additive (fun s => (mget s b).isSome = true)
    (fun s => (mgetD s b Totals.zero).expense) _
    (fun t => if (!isTransfer t && !(decide (t.type = TransactionType.Income))
        && decide (key t = b)) then t.amt f else 0)
    ts (fun s t _ => hpres s t) (fun s t _ hs => by dsimp only; rw [hchar s t hs]; rfl)
    (initTotals buckets) hinit
  have hnet := foldl_additive (fun s => (mget s b).isSome = true)
    (fun s => (mgetD s b Totals.zero).net) _
    (fun t => if (!isTransfer t && decide (key t = b)) then t.amt f else 0)
    ts (fun s t _ => hpres s t) (fun s t _ hs => by dsimp only; rw [hchar s t hs]; rfl)
    (initTotals buckets) hinit
  dsimp only at hI hinc hexp hnet
  have hinit2 : mgetD (initTotals buckets) b Totals.zero = Totals.zero := by
    rw [mgetD, mget_initTotals, if_pos hb]; rfl
  rw [hinit2] at hinc hexp hnet
  -- phase-three: pour the per-bucket transfer nets into income and net
  have hdnt := mgetD_netTransfersBy key f ts b
  have hdntN := nodupKeys_netTransfersBy key f ts
  by_cases hE : (netTransfersBy key f ts).isEmpty
  · rw [if_pos hE]
    have hnil : netTransfersBy key f ts = [] := by
      cases hnn : netTransfersBy key f ts with
      | nil => rfl
      | cons a l => rw [hnn] at hE; cases hE
    rw [hnil] at hdnt
    have htr0 : bucketTransferNet key f ts b = 0 := by
      rw [← hdnt]; rfl
    rw [mget_eq_some_mgetD _ b Totals.zero hI]
    congr 1
    ext
    · rw [hinc, htr0, add_zero]
      show (0:ℚ) + _ = _
      rw [zero_add, sum_map_ite]; rfl
    · rw [hexp]
      show (0:ℚ) + _ = _
      rw [zero_add, sum_map_ite]; rfl
    · rw [hnet, bucketNet_split, htr0]
      show (0:ℚ) + _ = _
      rw [zero_add, sum_map_ite]
      simp [sumAmtBy]
  · rw [if_neg hE]
    have hpres3 : ∀ (s : List (κ × Totals)) (p : κ × ℚ),
        (mget s b).isSome = true →
        (mget (mupdIfPresent s p.1 (fun tot =>
          ⟨tot.income + p.2, tot.expense, tot.net + p.2⟩)) b).isSome = true := by
      intro s p hs
      rw [isSome_mupdIfPresent]; exact hs
    have hchar3 : ∀ (s : List (κ × Totals)) (p : κ × ℚ),
        (mget s b).isSome = true →
        mgetD (mupdIfPresent s p.1 (fun tot =>
          ⟨tot.income + p.2, tot.expense, tot.net + p.2⟩)) b Totals.zero
        = Totals.add3 (mgetD s b Totals.zero)
            (if decide (p.1 = b) then p.2 else 0) 0
            (if decide (p.1 = b) then p.2 else 0) := by
      intro s p hs
      obtain ⟨tot, htot⟩ := Option.isSome_iff_exists.mp hs
      by_cases hk : p.1 = b
      · rw [mgetD, hk, mget_mupdIfPresent_self, htot]
        simp [htot, hk, mgetD, Totals.add3]
      · have hk2 : b ≠ p.1 := fun hh => hk hh.symm
        rw [mgetD, mget_mupdIfPresent_ne _ _ _ _ hk2, ← mgetD]
        simp [hk, Totals.add3]
    have hI3 := foldl_pres (fun s => (mget s b).isSome = true) _
      (netTransfersBy key f ts) (fun s p _ => hpres3 s p) _ hI
    have hinc3 := foldl_additive (fun s => (mget s b).isSome = true)
      (fun s => (mgetD s b Totals.zero).income) _
      (fun p => if decide (p.1 = b) then p.2 else 0)
      (netTransfersBy key f ts) (fun s p _ => hpres3 s p)
      (fun s p _ hs => by dsimp only; rw [hchar3 s p hs]; rfl) _ hI
    have hexp3 := foldl_additive (fun s => (mget s b).isSome = true)
      (fun s => (mgetD s b Totals.zero).expense) _
      (fun _ => (0 : ℚ))
      (netTransfersBy key f ts) (fun s p _ => hpres3 s p)
      (fun s p _ hs => by dsimp only; rw [hchar3 s p hs]; rfl) _ hI
    have hnet3 := foldl_additive (fun s => (mget s b).isSome = true)
      (fun s => (mgetD s b Totals.zero).net) _
      (fun p => if decide (p.1 = b) then p.2 else 0)
      (netTransfersBy key f ts) (fun s p _ => hpres3 s p)
      (fun s p _ hs => by dsimp only; rw [hchar3 s p hs]; rfl) _ hI
    dsimp only at hI3 hinc3 hexp3 hnet3
    have hsum3 : ((netTransfersBy key f ts).map
        (fun p => if decide (p.1 = b) then p.2 else 0)).sum
        = bucketTransferNet key f ts b := by
      rw [sum_map_ite, ← hdnt, ← keySum_eq_mgetD _ b hdntN]
      rfl
    rw [mget_eq_some_mgetD _ b Totals.zero hI3]
    congr 1
    ext
    · rw [hinc3, hsum3, hinc]
      show (0:ℚ) + _ + _ = _
      rw [zero_add]
      congr 1
      rw [sum_map_ite]; rfl
    · rw [hexp3, hexp]
      have hz : ((netTransfersBy key f ts).map (fun _ : κ × ℚ => (0:ℚ))).sum = 0 := by
        simp
      rw [hz, add_zero]
      show (0:ℚ) + _ = _
      rw [zero_add, sum_map_ite]; rfl
    · rw [hnet3, hsum3, hnet, bucketNet_split]
      show (0:ℚ) + _ + _ = _
      rw [zero_add]
      congr 1
      rw [sum_map_ite]; rfl

/-- Outside the bucket sequence neither scheme creates a totals entry. -/
theorem mget_twoPhaseTotals_not_mem {κ : Type} [DecidableEq κ]
    (buckets : List κ) (key : Transaction → κ) (f : AmountField)
    (ts : List Transaction) (b : κ) (hb : b ∉ buckets) :
    mget (twoPhaseTotals buckets key f ts) b = none := by
  unfold twoPhaseTotals
  have hinit : mget (initTotals buckets) b = none := by
    rw [mget_initTotals, if_neg hb]
  have hstep : ∀ (s : List (κ × Totals)) (t : Transaction), mget s b = none →
      mget (if t.guide ≠ transferGuideId then
        mupdIfPresent s (key t) (routeByType t f) else s) b = none := by
    intro s t hs
    by_cases hg : t.guide ≠ transferGuideId
    · rw [if_pos hg, ← Option.not_isSome_iff_eq_none, isSome_mupdIfPresent,
        Option.not_isSome_iff_eq_none]
      exact hs
    · rwa [if_neg hg]
  have h2 := foldl_pres (fun s => mget s b = none) _ ts
    (fun s t _ => hstep s t) (initTotals buckets) hinit
  by_cases hE : (netTransfersBy key f ts).isEmpty
  · rwa [if_pos hE]
  · rw [if_neg hE]
    exact foldl_pres (fun s => mget s b = none) _ (netTransfersBy key f ts)
      (fun s p _ hs => by
        dsimp only
        rw [← Option.not_isSome_iff_eq_none, isSome_mupdIfPresent,
          Option.not_isSome_iff_eq_none]
        exact hs) _ h2

theorem mget_singlePassTotals_not_mem {κ : Type} [DecidableEq κ]
    (buckets : List κ) (key : Transaction → κ) (f : AmountField)
    (ts : List Transaction) (b : κ) (hb : b ∉ buckets) :
    mget (singlePassTotals buckets key f ts) b = none := by
  unfold singlePassTotals
  have hinit : mget (initTotals buckets) b = none := by
    rw [mget_initTotals, if_neg hb]
  exact foldl_pres (fun s => mget s b = none) _ ts
    (fun s t _ hs => by
      dsimp only
      rw [← Option.not_isSome_iff_eq_none, isSome_mupdIfPresent,
        Option.not_isSome_iff_eq_none]
      exact hs) _ hinit

/-- The pair state threaded by `dailyAgg` splits into its two independent
components. -/
theorem dailyAgg_components (guides : List Guide) (dates : List Int)
    (f : AmountField) (sorted : List Transaction) :
    dailyAgg guides dates f sorted
      = (dailyDataByGuide guides f sorted,
         twoPhaseTotals dates (fun t => t.date.toDays) f sorted) := by
  unfold dailyAgg dailyDataByGuide twoPhaseTotals
  dsimp only
  have key2 : ∀ (ts : List Transaction) (a : List (String × List (Int × ℚ)))
      (b : List (Int × Totals)),
      ts.foldl (fun st t =>
        (if t.guide ≠ transferGuideId then
           mupd st.1 (guideNameOf guides t.guide) []
             (fun gd => mupdAdd gd t.date.toDays (t.amt f))
         else st.1,
         if t.guide ≠ transferGuideId then
           mupdIfPresent st.2 t.date.toDays (routeByType t f)
         else st.2)) (a, b)
      = (ts.foldl (fun acc t =>
           if t.guide ≠ transferGuideId then
             mupd acc (guideNameOf guides t.guide) []
               (fun gd => mupdAdd gd t.date.toDays (t.amt f))
           else acc) a,
         ts.foldl (fun acc t =>
           if t.guide ≠ transferGuideId then
             mupdIfPresent acc t.date.toDays (routeByType t f)
           else acc) b) := by
    intro ts
    induction ts with
    | nil => intro a b; rfl
    | cons t rest ih => intro a b; exact ih _ _
  have key3 : ∀ (xs : List (Int × ℚ)) (a : List (String × List (Int × ℚ)))
      (b : List (Int × Totals)),
      xs.foldl (fun st p =>
        (mupd st.1 (guideNameOf guides transferGuideId) []
           (fun gd => mset gd p.1 p.2),
         mupdIfPresent st.2 p.1 (fun tot =>
           ⟨tot.income + p.2, tot.expense, tot.net + p.2⟩))) (a, b)
      = (xs.foldl (fun acc p =>
           mupd acc (guideNameOf guides transferGuideId) []
             (fun gd => mset gd p.1 p.2)) a,
         xs.foldl (fun acc p =>
           mupdIfPresent acc p.1 (fun tot =>
             ⟨tot.income + p.2, tot.expense, tot.net + p.2⟩)) b) := by
    intro xs
    induction xs with
    | nil => intro a b; rfl
    | cons p rest ih => intro a b; exact ih _ _
  by_cases hE : (netTransfersBy (fun t => t.date.toDays) f sorted).isEmpty
  · rw [if_pos hE, if_pos hE, if_pos hE]
    exact key2 sorted [] (initTotals dates)
  · rw [if_neg hE, if_neg hE, if_neg hE]
    rw [key2 sorted [] (initTotals dates)]
    exact key3 _ _ _

/-- Telescoping of the transfer-row rewrite loop: its net effect on the
category-value sum of a bucket is the final value of the rebuilt transfer
row at that bucket, minus the row's initial value there. -/
theorem catSum_foldl_phase3 {κ : Type} [DecidableEq κ] (xs : List (κ × ℚ))
    (tname : String) (b : κ) :
    ∀ (dbg : List (String × List (κ × ℚ))),
    catSum (xs.foldl (fun st p =>
      mupd st tname [] (fun gd => mset gd p.1 p.2)) dbg) b
      = catSum dbg b
        + mgetD (xs.foldl (fun gd p => mset gd p.1 p.2) (mgetD dbg tname [])) b 0
        - mgetD (mgetD dbg tname []) b 0 := by
  induction xs with
  | nil => intro dbg; simp
  | cons p rest ih =>
    intro dbg
    rw [List.foldl_cons, List.foldl_cons, ih, catSum_mupd]
    have hrow : mgetD (mupd dbg tname [] (fun gd => mset gd p.1 p.2)) tname []
        = mset (mgetD dbg tname []) p.1 p.2 := by
      rw [mgetD, mget_mupd_self]; rfl
    rw [hrow]
    ring

/-- Closed form of the category-value sum of MonthlyFlowView's matrix: at
every bucket it is the sum of every amount of the bucket, transfers
included. -/
theorem catSum_monthlyDataByGuide (guides : List Guide) (f : AmountField)
    (yearly : List Transaction) (b : Int × Nat) :
    catSum (monthlyDataByGuide guides f yearly) b
      = bucketNet (fun t => t.date.monthKey) f yearly b := by
  unfold monthlyDataByGuide
  have h := foldl_additive (fun _ => True) (fun dbg => catSum dbg b)
    (fun acc t => mupd acc (guideNameOf guides t.guide) []
      (fun gd => mupdAdd gd t.date.monthKey (t.amt f)))
    (fun t => if decide (t.date.monthKey = b) then t.amt f else 0) yearly
    (fun _ _ _ _ => trivial)
    (fun s t _ _ => by
      dsimp only
      rw [catSum_mupd, mgetD_mupdAdd]
      by_cases hk : t.date.monthKey = b
      · rw [if_pos hk.symm, if_pos (by simp [hk])]
        ring
      · rw [if_neg (fun hh => hk hh.symm), if_neg (by simp [hk])]
        ring)
    [] trivial
  dsimp only at h
  rw [h]
  show (0:ℚ) + _ = _
  rw [zero_add, sum_map_ite]
  rfl

/-- Closed form of the category-value sum of DailyFlowView's matrix, under
the assumption that no non-transfer record's resolved display name collides
with the transfer category's: at every bucket it is the sum of every
amount of the bucket. -/
theorem catSum_dailyDataByGuide (guides : List Guide) (f : AmountField)
    (sorted : List Transaction) (b : Int)
    (hname : ∀ t ∈ sorted, t.guide ≠ transferGuideId →
      guideNameOf guides t.guide ≠ guideNameOf guides transferGuideId) :
    catSum (dailyDataByGuide guides f sorted) b
      = bucketNet (fun t => t.date.toDays) f sorted b := by
  unfold dailyDataByGuide
  dsimp only
  have hpres : ∀ (s : List (String × List (Int × ℚ))) (t : Transaction),
      t ∈ sorted → mget s (guideNameOf guides transferGuideId) = none →
      mget (if t.guide ≠ transferGuideId then
        mupd s (guideNameOf guides t.guide) []
          (fun gd => mupdAdd gd t.date.toDays (t.amt f)) else s)
        (guideNameOf guides transferGuideId) = none := by
    intro s t ht hs
    by_cases hg : t.guide ≠ transferGuideId
    · rw [if_pos hg, mget_mupd_ne _ _ _ _ _ (fun hh => hname t ht hg hh.symm)]
      exact hs
    · rwa [if_neg hg]
  have habsent := foldl_pres
    (fun s => mget s (guideNameOf guides transferGuideId) = none) _ sorted
    hpres [] rfl
  have h2 := foldl_additive (fun _ => True) (fun dbg => catSum dbg b)
    (fun acc t => if t.guide ≠ transferGuideId then
      mupd acc (guideNameOf guides t.guide) []
        (fun gd => mupdAdd gd t.date.toDays (t.amt f)) else acc)
    (fun t => if (!isTransfer t && decide (t.date.toDays = b)) then t.amt f
      else 0)
    sorted (fun _ _ _ _ => trivial)
    (fun s t _ _ => by
      dsimp only
      by_cases hg : t.guide = transferGuideId
      · rw [if_neg (fun hh => hh hg), if_neg (by simp [isTransfer, hg])]
        ring
      · rw [if_pos hg, catSum_mupd, mgetD_mupdAdd]
        by_cases hk : t.date.toDays = b
        · rw [if_pos hk.symm, if_pos (by simp [isTransfer, hg, hk])]
          ring
        · rw [if_neg (fun hh => hk hh.symm),
            if_neg (by simp [isTransfer, hg, hk])]
          ring)
    [] trivial
  dsimp only at h2
  have hS2 : catSum (sorted.foldl (fun acc t =>
      if t.guide ≠ transferGuideId then
        mupd acc (guideNameOf guides t.guide) []
          (fun gd => mupdAdd gd t.date.toDays (t.amt f)) else acc) []) b
      = sumAmtBy sorted f (fun t => !isTransfer t && decide (t.date.toDays = b)) := by
    rw [h2]
    show (0:ℚ) + _ = _
    rw [zero_add, sum_map_ite]
    rfl
  have hdnt := mgetD_netTransfersBy (fun t => t.date.toDays) f sorted b
  by_cases hE : (netTransfersBy (fun t => t.date.toDays) f sorted).isEmpty
  · rw [if_pos hE, hS2]
    have hnil : netTransfersBy (fun t => t.date.toDays) f sorted = [] := by
      cases hnn : netTransfersBy (fun t => t.date.toDays) f sorted with
      | nil => rfl
      | cons a l => rw [hnn] at hE; cases hE
    rw [hnil] at hdnt
    have htr0 : bucketTransferNet (fun t => t.date.toDays) f sorted b = 0 := by
      rw [← hdnt]; rfl
    rw [bucketNet_split, htr0, add_zero]
  · rw [if_neg hE, catSum_foldl_phase3, hS2]
    have hrow0 : mgetD (sorted.foldl (fun acc t =>
        if t.guide ≠ transferGuideId then
          mupd acc (guideNameOf guides t.guide) []
            (fun gd => mupdAdd gd t.date.toDays (t.amt f)) else acc) [])
        (guideNameOf guides transferGuideId) [] = [] := by
      rw [mgetD, habsent]; rfl
    rw [hrow0,
      mgetD_foldl_mset _ b (nodupKeys_netTransfersBy (fun t => t.date.toDays) f sorted),
      hdnt, bucketNet_split]
    show _ + _ - mgetD ([] : List (Int × ℚ)) b 0 = _
    rw [show mgetD ([] : List (Int × ℚ)) b 0 = 0 from rfl, sub_zero]

/-! ## Lemmas on the forecast reconciliation series -/

theorem forecastSeriesGo_sum (A : ℚ) (vs : List ℚ) :
    ∀ corr, (forecastSeriesGo A corr vs).sum = A * (vs.length + 1) - corr := by
  induction vs with
  | nil => intro corr; simp [forecastSeriesGo]
  | cons v rest ih =>
    intro corr
    simp only [forecastSeriesGo, List.sum_cons, List.length_cons]
    rw [ih]
    push_cast
    ring

theorem forecastSeries_length (A : ℚ) (vs : List ℚ) :
    (forecastSeries A vs).length = vs.length + 1 := by
  unfold forecastSeries
  generalize (0 : ℚ) = corr
  induction vs generalizing corr with
  | nil => rfl
  | cons v rest ih => simp [forecastSeriesGo, ih]

/-! ## Lemmas on the running-balance folds -/

theorem closingBalances_length (init : ℚ) (nets : List ℚ) :
    (closingBalances init nets).length = nets.length := by
  induction nets generalizing init with
  | nil => rfl
  | cons n rest ih => simp [closingBalances, ih]

theorem openingBalances_length (init : ℚ) (nets : List ℚ) :
    (openingBalances init nets).length = nets.length := by
  induction nets generalizing init with
  | nil => rfl
  | cons n rest ih => simp [openingBalances, ih]

theorem closingBalances_getD (init : ℚ) (nets : List ℚ) :
    ∀ j, j < nets.length →
    (closingBalances init nets).getD j 0
      = (openingBalances init nets).getD j 0 + nets.getD j 0 := by
  induction nets generalizing init with
  | nil => intro j hj; cases hj
  | cons n rest ih =>
    intro j hj
    cases j with
    | zero => simp [closingBalances, openingBalances]
    | succ jj =>
      simp only [closingBalances, openingBalances, List.getD_cons_succ]
      exact ih (init + n) jj (Nat.lt_of_succ_lt_succ hj)

theorem openingBalances_succ (init : ℚ) (nets : List ℚ) :
    ∀ j, j + 1 < nets.length →
    (openingBalances init nets).getD (j + 1) 0
      = (closingBalances init nets).getD j 0 := by
  induction nets generalizing init with
  | nil => intro j hj; cases hj
  | cons n rest ih =>
    intro j hj
    cases j with
    | zero =>
      cases rest with
      | nil => simp at hj
      | cons m r2 => simp [openingBalances, closingBalances]
    | succ jj =>
      simp only [openingBalances, closingBalances, List.getD_cons_succ]
      exact ih (init + n) jj (Nat.lt_of_succ_lt_succ hj)

theorem closingBalances_last (init : ℚ) (nets : List ℚ) :
    nets ≠ [] →
    (closingBalances init nets).getD (nets.length - 1) 0 = init + nets.sum := by
  induction nets generalizing init with
  | nil => intro h; cases h rfl
  | cons n rest ih =>
    intro _
    cases rest with
    | nil => simp [closingBalances]
    | cons m r2 =>
      have h2 := ih (init + n) (by simp)
      simp only [List.length_cons] at h2 ⊢
      rw [show r2.length + 1 + 1 - 1 = r2.length + 1 from rfl]
      show (closingBalances init (n :: m :: r2)).getD (r2.length + 1) 0 = _
      rw [show closingBalances init (n :: m :: r2)
        = (init + n) :: closingBalances (init + n) (m :: r2) from rfl,
        List.getD_cons_succ]
      rw [show r2.length + 1 - 1 = r2.length from rfl] at h2
      rw [h2]
      simp only [List.sum_cons]
      ring

/-! ## Lemmas on the derived VAT computation -/

/-- Closed form of the VAT classification pass: it appends exactly the
specified income and expense entry lists and accumulates their amount
sums. -/
theorem vatDetailBase_go (cfg : ForecastConfig) (my : Int × Nat)
    (dbg : List (String × List ((Int × Nat) × ForecastCell))) :
    ∀ vd : VatDetailData,
    dbg.foldl (vatClassifyStep cfg my) vd
      = {vd with
          incomes := vd.incomes ++ vatIncomeEntriesSpec cfg my dbg,
          expenses := vd.expenses ++ vatExpenseEntriesSpec cfg my dbg,
          totalIncome := vd.totalIncome + vatIncomeTotalSpec cfg my dbg,
          totalExpense := vd.totalExpense + vatExpenseTotalSpec cfg my dbg} := by
  induction dbg with
  | nil =>
    intro vd
    simp [vatIncomeEntriesSpec, vatExpenseEntriesSpec, vatIncomeTotalSpec,
      vatExpenseTotalSpec]
  | cons p rest ih =>
    intro vd
    rw [List.foldl_cons, ih]
    cases hc : mget p.2 my with
    | none =>
      ext <;>
        simp [vatClassifyStep, hc, vatIncomeEntriesSpec,
          vatExpenseEntriesSpec, vatIncomeTotalSpec, vatExpenseTotalSpec,
          List.filterMap_cons]
    | some cell =>
      by_cases hfc : cell.isForecast
      · by_cases hop : (operatingIncomeGuideIdsOf cfg).contains p.1
        · have hopm : p.1 ∈ operatingIncomeGuideIdsOf cfg := by simpa using hop
          ext <;>
            simp [vatClassifyStep, hc, hfc, hop, hopm, vatIncomeEntriesSpec,
              vatExpenseEntriesSpec, vatIncomeTotalSpec, vatExpenseTotalSpec,
              List.filterMap_cons, vatGuideNameOf, List.append_assoc] <;>
            ring
        · have hopm : p.1 ∉ operatingIncomeGuideIdsOf cfg := by simpa using hop
          by_cases hneg : (decide (cell.amount < 0)
              && !((excludedExpenseIdsForVatOf cfg).contains p.1)) = true
          · have hneg2 := hneg
            rw [Bool.and_eq_true, decide_eq_true_eq, Bool.not_eq_true'] at hneg2
            have hexm : p.1 ∉ excludedExpenseIdsForVatOf cfg := by
              simpa using hneg2.2
            ext <;>
              simp [vatClassifyStep, hc, hfc, hop, hopm, hneg, hneg2.1, hexm,
                vatIncomeEntriesSpec, vatExpenseEntriesSpec,
                vatIncomeTotalSpec, vatExpenseTotalSpec, List.filterMap_cons,
                vatGuideNameOf, List.append_assoc] <;>
              ring
          · have hneg2 : ¬ (cell.amount < 0
                ∧ p.1 ∉ excludedExpenseIdsForVatOf cfg) := by
              intro hcontra
              apply hneg
              rw [Bool.and_eq_true, decide_eq_true_eq]
              refine ⟨hcontra.1, ?_⟩
              simp [hcontra.2]
            ext <;>
              simp [vatClassifyStep, hc, hfc, hop, hopm, hneg, hneg2,
                vatIncomeEntriesSpec, vatExpenseEntriesSpec,
                vatIncomeTotalSpec, vatExpenseTotalSpec, List.filterMap_cons]
      · ext <;>
          simp [vatClassifyStep, hc, hfc, vatIncomeEntriesSpec,
            vatExpenseEntriesSpec, vatIncomeTotalSpec, vatExpenseTotalSpec,
            List.filterMap_cons]

/-! ## Lemmas on the year-over-year dampening -/

theorem sum_map_ite_filter2 {α : Type} (xs : List α) (c d : α → Bool)
    (v : α → ℚ) :
    ((xs.filter c).map (fun x => if d x then v x else 0)).sum
      = (xs.map (fun x => if (c x && d x) then v x else 0)).sum := by
  induction xs with
  | nil => rfl
  | cons x rest ih =>
    by_cases hx : c x
    · by_cases hd : d x <;> simp [List.filter_cons, hx, hd, ih]
    · simp [List.filter_cons, hx, ih]

/-- With distinct keys, summing a key-gated term over a map's entries
yields the term at the map's value for that key (or 0 if absent). -/
theorem sum_entries_single {κ : Type} [DecidableEq κ] (m : List (κ × ℚ))
    (gid : κ) (h : ℚ → ℚ) (hn : NodupKeys m) :
    (m.map (fun p => if decide (p.1 = gid) then h p.2 else 0)).sum
      = if gid ∈ m.map (·.1) then h (mgetD m gid 0) else 0 := by
  induction m with
  | nil => simp
  | cons p rest ih =>
    have hnp := List.nodup_cons.mp hn
    by_cases hp : p.1 = gid
    · subst hp
      have hrest : p.1 ∉ rest.map (·.1) := hnp.1
      have hz : (rest.map (fun q =>
          if decide (q.1 = p.1) then h q.2 else 0)).sum = 0 := by
        rw [ih hnp.2, if_neg hrest]
      simp only [decide_eq_true_eq] at hz
      simp [hz, mgetD, mget]
    · have hgp : ¬ (gid = p.1) := fun hh => hp hh.symm
      simp only [List.map_cons, List.sum_cons,
        if_neg (show ¬ (decide (p.1 = gid) = true) by simp [hp]), zero_add]
      rw [ih hnp.2]
      by_cases hg : gid ∈ rest.map (·.1) <;>
        simp [hg, hgp, mgetD, mget, hp]

theorem nodupKeys_baseMonthlyAverages (cfg : ForecastConfig) :
    NodupKeys (baseMonthlyAveragesOf cfg) := by
  unfold baseMonthlyAveragesOf
  by_cases hE : (historicalTransactionsOf cfg).isEmpty
  · rw [if_pos hE]; simp [NodupKeys]
  · rw [if_neg hE]
    dsimp only
    have hs : NodupKeys ((historicalTransactionsOf cfg).foldl
        (fun acc t => mupdAdd acc t.guide (t.amt cfg.field)) []) :=
      foldl_pres NodupKeys _ _ (fun s t _ hsn => nodupKeys_mupdAdd _ _ _ hsn)
        [] (by simp [NodupKeys])
    unfold NodupKeys at *
    rw [List.map_map]
    exact hs

theorem mget_map_entries {κ : Type} [DecidableEq κ] (m : List (κ × ℚ))
    (F : κ → ℚ → ℚ) (gid : κ) :
    mget (m.map (fun p => (p.1, F p.1 p.2))) gid
      = (mget m gid).map (F gid) := by
  induction m with
  | nil => rfl
  | cons p rest ih =>
    by_cases hp : p.1 = gid
    · subst hp; simp [mget]
    · simp [mget, hp, ih]

/-- Contribution of one month beyond the last real date to the prior-year
totals of a given active, non-initial-balance category. -/
theorem prevYear_forecast_contrib (cfg : ForecastConfig) (gid : String)
    (hactive : (activeGuideIdsOf cfg).contains gid = true)
    (hnotib : (some gid == initialBalanceGuideIdOf cfg) = false)
    (my : Int × Nat) (acc : List (String × ℚ)) :
    mgetD ((baseMonthlyAveragesOf cfg).foldl (fun acc2 p =>
        if !((activeGuideIdsOf cfg).contains p.1)
            || some p.1 == initialBalanceGuideIdOf cfg then acc2
        else if some p.1 == aguinaldoGuideIdOf cfg then
          (if my.2 = 12 then
            match nominaGuideIdOf cfg with
            | some nid =>
              mupdAdd acc2 p.1 (-(|mgetD (baseMonthlyAveragesOf cfg) nid 0| / 2))
            | none => acc2
          else acc2)
        else mupdAdd acc2 p.1 p.2) acc) gid 0
    = mgetD acc gid 0
      + (if some gid == aguinaldoGuideIdOf cfg then
          (if keysContain (baseMonthlyAveragesOf cfg) gid ∧ my.2 = 12 then
            match nominaGuideIdOf cfg with
            | some nid => -(|mgetD (baseMonthlyAveragesOf cfg) nid 0| / 2)
            | none => 0
          else 0)
        else mgetD (baseMonthlyAveragesOf cfg) gid 0) := by
  have h := foldl_additive (fun _ => True) (fun m => mgetD m gid 0)
    (fun acc2 p =>
      if !((activeGuideIdsOf cfg).contains p.1)
          || some p.1 == initialBalanceGuideIdOf cfg then acc2
      else if some p.1 == aguinaldoGuideIdOf cfg then
        (if my.2 = 12 then
          match nominaGuideIdOf cfg with
          | some nid =>
            mupdAdd acc2 p.1 (-(|mgetD (baseMonthlyAveragesOf cfg) nid 0| / 2))
          | none => acc2
        else acc2)
      else mupdAdd acc2 p.1 p.2)
    (fun p => if decide (p.1 = gid) then
      (if !((activeGuideIdsOf cfg).contains p.1)
          || some p.1 == initialBalanceGuideIdOf cfg then 0
      else if some p.1 == aguinaldoGuideIdOf cfg then
        (if my.2 = 12 then
          match nominaGuideIdOf cfg with
          | some nid => -(|mgetD (baseMonthlyAveragesOf cfg) nid 0| / 2)
          | none => 0
        else 0)
      else p.2) else 0)
    (baseMonthlyAveragesOf cfg)
    (fun _ _ _ _ => trivial)
    (fun s p _ _ => by
      dsimp only
      by_cases hg1 : (!((activeGuideIdsOf cfg).contains p.1)
          || some p.1 == initialBalanceGuideIdOf cfg) = true
      · rw [if_pos hg1, if_pos hg1]
        by_cases hp : p.1 = gid <;> simp [hp]
      · rw [if_neg hg1, if_neg hg1]
        by_cases hg2 : (some p.1 == aguinaldoGuideIdOf cfg) = true
        · rw [if_pos hg2, if_pos hg2]
          by_cases h12 : my.2 = 12
          · rw [if_pos h12, if_pos h12]
            cases hnom : nominaGuideIdOf cfg with
            | none => by_cases hp : p.1 = gid <;> simp [hp]
            | some nid =>
              rw [mgetD_mupdAdd]
              by_cases hp : p.1 = gid
              · simp [hp]
              · have hp2 : ¬ (gid = p.1) := fun hh => hp hh.symm
                simp [hp, hp2]
          · rw [if_neg h12, if_neg h12]
            by_cases hp : p.1 = gid <;> simp [hp]
        · rw [if_neg hg2, if_neg hg2, mgetD_mupdAdd]
          by_cases hp : p.1 = gid
          · simp [hp]
          · have hp2 : ¬ (gid = p.1) := fun hh => hp hh.symm
            simp [hp, hp2])
    acc trivial
  dsimp only at h
  rw [h]
  congr 1
  have hcongr : ∀ p : String × ℚ,
      (if decide (p.1 = gid) then
        (if !((activeGuideIdsOf cfg).contains p.1)
            || some p.1 == initialBalanceGuideIdOf cfg then 0
        else if some p.1 == aguinaldoGuideIdOf cfg then
          (if my.2 = 12 then
            match nominaGuideIdOf cfg with
            | some nid => -(|mgetD (baseMonthlyAveragesOf cfg) nid 0| / 2)
            | none => 0
          else 0)
        else p.2) else 0)
      = (if decide (p.1 = gid) then
          (if some gid == aguinaldoGuideIdOf cfg then
            (if my.2 = 12 then
              match nominaGuideIdOf cfg with
              | some nid => -(|mgetD (baseMonthlyAveragesOf cfg) nid 0| / 2)
              | none => 0
            else 0)
          else p.2) else 0) := by
    intro p
    by_cases hp : p.1 = gid
    · rw [hp]
      rw [if_neg (show ¬ ((!(activeGuideIdsOf cfg).contains gid
          || some gid == initialBalanceGuideIdOf cfg) = true) from by
        simp [show gid ∈ activeGuideIdsOf cfg from by simpa using hactive,
          hnotib])]
    · simp [hp]
  rw [sum_map_congr _ _ _ hcongr,
    sum_entries_single _ gid _ (nodupKeys_baseMonthlyAverages cfg)]
  by_cases hag : (some gid == aguinaldoGuideIdOf cfg) = true
  · rw [if_pos hag]
    by_cases hmem : gid ∈ (baseMonthlyAveragesOf cfg).map (·.1)
    · rw [if_pos hmem, if_pos hag]
      have hkc : keysContain (baseMonthlyAveragesOf cfg) gid = true := by
        simp [keysContain, hmem]
      by_cases h12 : my.2 = 12
      · rw [if_pos h12, if_pos (by simp [hkc, h12])]
      · rw [if_neg h12, if_neg (by simp [h12])]
    · rw [if_neg hmem, if_pos hag]
      have hkc : ¬ (keysContain (baseMonthlyAveragesOf cfg) gid = true) := by
        simp [keysContain, hmem]
      rw [if_neg (by simp [keysContain, hmem])]
  · rw [if_neg hag]
    by_cases hmem : gid ∈ (baseMonthlyAveragesOf cfg).map (·.1)
    · rw [if_pos hmem, if_neg hag]
    · rw [if_neg hmem, if_neg hag, mgetD_of_not_mem _ _ hmem]

/-- Contribution of a real month to the prior-year totals of a given
active, non-initial-balance category. -/
theorem prevYear_real_contrib (cfg : ForecastConfig) (gid : String)
    (hactive : (activeGuideIdsOf cfg).contains gid = true)
    (hnotib : (some gid == initialBalanceGuideIdOf cfg) = false)
    (hne : gid ≠ "") (my : Int × Nat) (acc : List (String × ℚ)) :
    mgetD ((cfg.transactions.filter (fun t =>
        t.date.monthKey == my && (activeGuideIdsOf cfg).contains t.guide
          && !(some t.guide == initialBalanceGuideIdOf cfg))).foldl
      (fun acc2 t => if t.guide == "" then acc2
        else mupdAdd acc2 t.guide (t.amt cfg.field)) acc) gid 0
    = mgetD acc gid 0
      + sumAmtBy cfg.transactions cfg.field (fun t =>
          t.date.monthKey == my && decide (t.guide = gid)) := by
  have h := foldl_additive (fun _ => True) (fun m => mgetD m gid 0)
    (fun acc2 t => if t.guide == "" then acc2
      else mupdAdd acc2 t.guide (t.amt cfg.field))
    (fun t => if (!(t.guide == "") && decide (t.guide = gid)) then
      t.amt cfg.field else 0)
    (cfg.transactions.filter (fun t =>
      t.date.monthKey == my && (activeGuideIdsOf cfg).contains t.guide
        && !(some t.guide == initialBalanceGuideIdOf cfg)))
    (fun _ _ _ _ => trivial)
    (fun s t _ _ => by
      dsimp only
      by_cases hgg : (t.guide == "") = true
      · rw [if_pos hgg, if_neg (by simp [hgg])]
        ring
      · rw [if_neg hgg, mgetD_mupdAdd]
        by_cases hp : t.guide = gid
        · simp [hp, show ¬ ((gid == "") = true) from by
            rw [hp] at hgg; exact hgg]
        · have hp2 : ¬ (gid = t.guide) := fun hh => hp hh.symm
          simp [hp, hp2])
    acc trivial
  dsimp only at h
  rw [h]
  congr 1
  rw [sum_map_ite_filter2]
  unfold sumAmtBy
  rw [← sum_map_ite]
  apply sum_map_congr
  intro t
  by_cases hp : t.guide = gid
  · have hm1 : gid ∈ activeGuideIdsOf cfg := by simpa using hactive
    have hm2 : ¬ (some gid = initialBalanceGuideIdOf cfg) := by
      simpa using hnotib
    by_cases hm : (t.date.monthKey == my) = true <;>
      simp [hm, hp, hm1, hm2, hne]
  · by_cases hm : (t.date.monthKey == my) = true <;> simp [hm, hp]

/-- Closed form of the prior-year totals at one category. -/
theorem mgetD_previousYearTotals (cfg : ForecastConfig) (gid : String)
    (hactive : (activeGuideIdsOf cfg).contains gid = true)
    (hnotib : (some gid == initialBalanceGuideIdOf cfg) = false)
    (hne : gid ≠ "") :
    mgetD (previousYearTotalsOf cfg) gid 0 = priorYearTotalSpec cfg gid := by
  unfold previousYearTotalsOf priorYearTotalSpec
  have h := foldl_additive (fun _ => True) (fun m => mgetD m gid 0)
    (fun acc my =>
      if decide ((lastRealDateOf cfg).toDays < monthStartDays my) then
        (baseMonthlyAveragesOf cfg).foldl (fun acc2 p =>
          if !((activeGuideIdsOf cfg).contains p.1)
              || some p.1 == initialBalanceGuideIdOf cfg then acc2
          else if some p.1 == aguinaldoGuideIdOf cfg then
            (if my.2 = 12 then
              match nominaGuideIdOf cfg with
              | some nid =>
                mupdAdd acc2 p.1
                  (-(|mgetD (baseMonthlyAveragesOf cfg) nid 0| / 2))
              | none => acc2
            else acc2)
          else mupdAdd acc2 p.1 p.2) acc
      else
        (cfg.transactions.filter (fun t =>
          t.date.monthKey == my && (activeGuideIdsOf cfg).contains t.guide
            && !(some t.guide == initialBalanceGuideIdOf cfg))).foldl
          (fun acc2 t =>
            if t.guide == "" then acc2
            else mupdAdd acc2 t.guide (t.amt cfg.field)) acc)
    (fun my =>
      if (lastRealDateOf cfg).toDays < monthStartDays my then
        (if some gid == aguinaldoGuideIdOf cfg then
          (if keysContain (baseMonthlyAveragesOf cfg) gid ∧ my.2 = 12 then
            match nominaGuideIdOf cfg with
            | some nid => -(|mgetD (baseMonthlyAveragesOf cfg) nid 0| / 2)
            | none => 0
          else 0)
        else mgetD (baseMonthlyAveragesOf cfg) gid 0)
      else
        sumAmtBy cfg.transactions cfg.field (fun t =>
          t.date.monthKey == my && decide (t.guide = gid)))
    (prevYearMonthsOf cfg)
    (fun _ _ _ _ => trivial)
    (fun acc my _ _ => by
      dsimp only
      by_cases hfm : (lastRealDateOf cfg).toDays < monthStartDays my
      · rw [if_pos (by simp [hfm]), if_pos hfm]
        exact prevYear_forecast_contrib cfg gid hactive hnotib my acc
      · rw [if_neg (by simp [hfm]), if_neg hfm]
        exact prevYear_real_contrib cfg gid hactive hnotib hne my acc)
    [] trivial
  dsimp only at h
  rw [h]
  show (0:ℚ) + _ = _
  rw [zero_add]

theorem vatDetailBase_spec (cfg : ForecastConfig) (my : Int × Nat)
    (dbg : List (String × List ((Int × Nat) × ForecastCell))) :
    vatDetailBase cfg my dbg
      = ⟨vatIncomeEntriesSpec cfg my dbg, vatExpenseEntriesSpec cfg my dbg,
         vatIncomeTotalSpec cfg my dbg, vatExpenseTotalSpec cfg my dbg,
         0, 0, 0⟩ := by
  unfold vatDetailBase
  rw [vatDetailBase_go]
  ext <;> simp

/-! ## Claim theorems -/

/-- C5: For every initial balance, ordered bucket sequence, and per-bucket
net totals, the running balance is a pure left fold: the opening balance of
bucket i equals the closing balance of bucket i-1 (the initial balance for
i = 0), each closing balance equals the opening balance plus that bucket's
net, and the final closing balance equals the initial balance plus the sum
of all buckets' nets. -/
theorem running_balance_left_fold (init : ℚ) (nets : List ℚ) (j : ℕ)
    (hj : j < nets.length) :
    (closingBalances init nets).length = nets.length
    ∧ (openingBalances init nets).getD 0 0 = init
    ∧ (closingBalances init nets).getD j 0
        = (openingBalances init nets).getD j 0 + nets.getD j 0
    ∧ (j + 1 < nets.length →
        (openingBalances init nets).getD (j + 1) 0
          = (closingBalances init nets).getD j 0)
    ∧ (closingBalances init nets).getD (nets.length - 1) 0
        = init + nets.sum := by
  have hne : nets ≠ [] := by
    intro h
    rw [h] at hj
    cases hj
  refine ⟨closingBalances_length init nets, ?_,
    closingBalances_getD init nets j hj,
    fun h2 => openingBalances_succ init nets j h2,
    closingBalances_last init nets hne⟩
  cases nets with
  | nil => cases hj
  | cons n rest => rfl

theorem running_balance_left_fold_witness :
    (closingBalances 5 [1, 2]).length = ([1, 2] : List ℚ).length
    ∧ (openingBalances 5 [1, 2]).getD 0 0 = 5
    ∧ (closingBalances 5 [1, 2]).getD 0 0
        = (openingBalances 5 [1, 2]).getD 0 0 + ([1, 2] : List ℚ).getD 0 0
    ∧ (0 + 1 < ([1, 2] : List ℚ).length →
        (openingBalances 5 [1, 2]).getD (0 + 1) 0
          = (closingBalances 5 [1, 2]).getD 0 0)
    ∧ (closingBalances 5 [1, 2]).getD (([1, 2] : List ℚ).length - 1) 0
        = 5 + ([1, 2] : List ℚ).sum :=
  running_balance_left_fold 5 [1, 2] 0 (by decide)

/-- C8 (amended): For an empty record set the daily view returns early with
an empty bucket sequence, empty matrices and a zero initial balance — it
does not enumerate the start..end span of an explicit date filter. -/
theorem empty_set_flow_result (guides : List Guide) (startF endF : Option Date)
    (f : AmountField) :
    dailyFlowData guides [] startF endF f = ⟨[], [], [], 0⟩ := rfl

set_option maxRecDepth 100000 in
/-- C8 counterexample: with an empty record set and the explicit filter
2024-01-01..2024-01-03 the produced bucket sequence is empty, not the
complete three-day span the claim requires. -/
theorem empty_set_buckets_not_spanning :
    (dailyFlowData [] [] (some ⟨2024, 1, 1⟩) (some ⟨2024, 1, 3⟩) .mn).dates = []
    ∧ dayRange (Date.toDays ⟨2024, 1, 1⟩) (Date.toDays ⟨2024, 1, 3⟩)
        = [Date.toDays ⟨2024, 1, 1⟩, Date.toDays ⟨2024, 1, 2⟩,
           Date.toDays ⟨2024, 1, 3⟩]
    ∧ (dailyFlowData [] [] (some ⟨2024, 1, 1⟩) (some ⟨2024, 1, 3⟩) .mn).dates
        ≠ dayRange (Date.toDays ⟨2024, 1, 1⟩) (Date.toDays ⟨2024, 1, 3⟩) := by
  with_unfolding_all decide

set_option maxRecDepth 100000 in
/-- C9: For every parsable date string the week-bucket function returns the
printed date of a day r that is a Saturday, on or before the parsed date
and less than seven days before it; and the two example strings map to
"2024-01-06". -/
theorem week_bucket_saturday :
    (∀ (s : String) (dt : Date), parseDateString s = some dt →
      ∃ r : Int, getWeekStartDate s = some (printDate (civilFromDays r))
        ∧ dayOfWeekFromDays r = 6 ∧ r ≤ dt.toDays ∧ dt.toDays - r < 7)
    ∧ getWeekStartDate "2024-01-06" = some "2024-01-06"
    ∧ getWeekStartDate "2024-01-12" = some "2024-01-06" := by
  refine ⟨?_, by with_unfolding_all decide, by with_unfolding_all decide⟩
  intro s dt hparse
  refine ⟨dt.toDays - (dayOfWeekFromDays dt.toDays + 1) % 7, ?_, ?_, ?_, ?_⟩
  · unfold getWeekStartDate
    rw [hparse]
  · unfold dayOfWeekFromDays
    omega
  · unfold dayOfWeekFromDays
    omega
  · unfold dayOfWeekFromDays
    omega

set_option maxRecDepth 100000 in
theorem week_bucket_saturday_witness :
    ∃ r : Int, getWeekStartDate "2024-01-20" = some (printDate (civilFromDays r))
      ∧ dayOfWeekFromDays r = 6 ∧ r ≤ Date.toDays ⟨2024, 1, 20⟩
      ∧ Date.toDays ⟨2024, 1, 20⟩ - r < 7 :=
  week_bucket_saturday.1 "2024-01-20" ⟨2024, 1, 20⟩ (by with_unfolding_all decide)

/-- C10: For every transaction list and bucket the two transfer-handling
implementations agree: the two-phase scheme of the daily view (net all
transfer legs per bucket first, then add the single net to income) and the
single-pass scheme of the monthly view (add each transfer leg to income as
scanned) produce identical per-bucket income/expense/net totals, under the
claim's proviso that the transfer category's display name is distinct from
every other catalog name. -/
theorem transfer_schemes_equivalent {κ : Type} [DecidableEq κ]
    (buckets : List κ) (key : Transaction → κ) (f : AmountField)
    (ts : List Transaction) (guides : List Guide) (b : κ)
    (hname : ∀ g ∈ guides, g.id ≠ transferGuideId →
      g.name ≠ guideNameOf guides transferGuideId) :
    mget (twoPhaseTotals buckets key f ts) b
      = mget (singlePassTotals buckets key f ts) b := by
  by_cases hb : b ∈ buckets
  · rw [mget_twoPhaseTotals buckets key f ts b hb,
      mget_singlePassTotals buckets key f ts b hb]
  · rw [mget_twoPhaseTotals_not_mem buckets key f ts b hb,
      mget_singlePassTotals_not_mem buckets key f ts b hb]

theorem transfer_schemes_equivalent_witness :
    mget (twoPhaseTotals [Date.toDays ⟨2024, 1, 5⟩, Date.toDays ⟨2024, 1, 6⟩]
        (fun t => t.date.toDays) .mn exScenarioTs) (Date.toDays ⟨2024, 1, 5⟩)
      = mget (singlePassTotals
        [Date.toDays ⟨2024, 1, 5⟩, Date.toDays ⟨2024, 1, 6⟩]
        (fun t => t.date.toDays) .mn exScenarioTs) (Date.toDays ⟨2024, 1, 5⟩) :=
  transfer_schemes_equivalent _ _ .mn exScenarioTs exScenarioGuides _
    (by with_unfolding_all decide)

/-- C2: At every bucket of the daily aggregation the transfer legs enter
the stored totals only as a single per-bucket net added to the income
component, never the expense component; the transfer category is excluded
from the expense section unconditionally; and when the per-bucket transfer
net is exactly 0 the stored totals are exactly the by-type income and
expense sums, so the zero-net transfer contributes 0 to both. -/
theorem daily_transfer_netting (guides : List Guide) (dates : List Int)
    (f : AmountField) (ts : List Transaction) (b : Int) (hb : b ∈ dates) :
    mget (dailyAgg guides dates f ts).2 b
      = some ⟨bucketIncomeByType (fun t => t.date.toDays) f ts b
              + bucketTransferNet (fun t => t.date.toDays) f ts b,
              bucketExpenseByType (fun t => t.date.toDays) f ts b,
              bucketNet (fun t => t.date.toDays) f ts b⟩
    ∧ (∀ data : List (Int × ℚ),
        expenseSectionKeep (guideNameOf guides transferGuideId)
          (guideNameOf guides transferGuideId) data = false)
    ∧ (bucketTransferNet (fun t => t.date.toDays) f ts b = 0 →
        mget (dailyAgg guides dates f ts).2 b
          = some ⟨bucketIncomeByType (fun t => t.date.toDays) f ts b,
                  bucketExpenseByType (fun t => t.date.toDays) f ts b,
                  bucketNet (fun t => t.date.toDays) f ts b⟩) := by
  rw [dailyAgg_components]
  dsimp only
  refine ⟨mget_twoPhaseTotals dates _ f ts b hb, ?_, ?_⟩
  · intro data
    unfold expenseSectionKeep
    rw [if_pos rfl]
  · intro h0
    rw [mget_twoPhaseTotals dates _ f ts b hb, h0, add_zero]

set_option maxRecDepth 1000000 in
theorem daily_transfer_netting_witness :
    mget (dailyAgg exScenarioGuides
        [Date.toDays ⟨2024, 1, 5⟩, Date.toDays ⟨2024, 1, 6⟩] .mn exScenarioTs).2
      (Date.toDays ⟨2024, 1, 5⟩)
      = some ⟨150, 0, 150⟩ := by
  have h := (daily_transfer_netting exScenarioGuides
    [Date.toDays ⟨2024, 1, 5⟩, Date.toDays ⟨2024, 1, 6⟩] .mn exScenarioTs
    (Date.toDays ⟨2024, 1, 5⟩) (by with_unfolding_all decide)).1
  rw [h]
  with_unfolding_all decide

/-- C6 (amended): at every bucket the stored totals satisfy
income + expense = net, in both the monthly and the daily aggregation;
net equals the column sum of the category matrix unconditionally in the
monthly view, and in the daily view provided no non-transfer record's
resolved display name collides with the transfer category's. -/
theorem net_conservation (guides : List Guide) (f : AmountField)
    (months : List (Int × Nat)) (yearly : List Transaction) (m : Int × Nat)
    (hm : m ∈ months)
    (dates : List Int) (dts : List Transaction) (b : Int) (hbd : b ∈ dates) :
    (∃ tot, mget (singlePassTotals months (fun t => t.date.monthKey) f yearly) m
        = some tot
      ∧ tot.income + tot.expense = tot.net
      ∧ tot.net = catSum (monthlyDataByGuide guides f yearly) m)
    ∧ (∃ tot, mget (dailyAgg guides dates f dts).2 b = some tot
      ∧ tot.income + tot.expense = tot.net
      ∧ ((∀ t ∈ dts, t.guide ≠ transferGuideId →
            guideNameOf guides t.guide ≠ guideNameOf guides transferGuideId) →
          tot.net = catSum (dailyAgg guides dates f dts).1 b)) := by
  constructor
  · refine ⟨_, mget_singlePassTotals months _ f yearly m hm, ?_, ?_⟩
    · dsimp only
      rw [bucketNet_split, nonTransferNet_split]
      ring
    · dsimp only
      rw [catSum_monthlyDataByGuide]
  · rw [dailyAgg_components]
    dsimp only
    refine ⟨_, mget_twoPhaseTotals dates _ f dts b hbd, ?_, ?_⟩
    · dsimp only
      rw [bucketNet_split, nonTransferNet_split]
      ring
    · intro hname
      dsimp only
      rw [catSum_dailyDataByGuide guides f dts b hname]

set_option maxRecDepth 1000000 in
theorem net_conservation_witness :
    (∃ tot, mget (singlePassTotals [((2024 : Int), 1)]
        (fun t => t.date.monthKey) .mn exScenarioTs) (2024, 1) = some tot
      ∧ tot.income + tot.expense = tot.net
      ∧ tot.net = catSum (monthlyDataByGuide exScenarioGuides .mn exScenarioTs)
          (2024, 1))
    ∧ (∃ tot, mget (dailyAgg exScenarioGuides [Date.toDays ⟨2024, 1, 5⟩] .mn
          exScenarioTs).2 (Date.toDays ⟨2024, 1, 5⟩) = some tot
      ∧ tot.income + tot.expense = tot.net
      ∧ ((∀ t ∈ exScenarioTs, t.guide ≠ transferGuideId →
            guideNameOf exScenarioGuides t.guide
              ≠ guideNameOf exScenarioGuides transferGuideId) →
          tot.net = catSum (dailyAgg exScenarioGuides [Date.toDays ⟨2024, 1, 5⟩]
            .mn exScenarioTs).1 (Date.toDays ⟨2024, 1, 5⟩))) :=
  net_conservation exScenarioGuides .mn [((2024 : Int), 1)] exScenarioTs
    (2024, 1) (by with_unfolding_all decide)
    [Date.toDays ⟨2024, 1, 5⟩] exScenarioTs (Date.toDays ⟨2024, 1, 5⟩)
    (by with_unfolding_all decide)

set_option maxRecDepth 1000000 in
/-- C6 counterexample: with an empty catalog two same-day records with
guide ids 7 and 13 both resolve to the fallback display name; the daily
totals carry the full net 150 while the category matrix column sums to 50,
refuting the unconditional net-equals-category-sum half of the claim for
the daily aggregation. -/
theorem daily_net_category_sum_mismatch :
    (mgetD (dailyFlowData [] exCollisionTs none none .mn).dailyTotals
        (Date.toDays ⟨2024, 1, 5⟩) Totals.zero).net = 150
    ∧ catSum (dailyFlowData [] exCollisionTs none none .mn).dataByGuide
        (Date.toDays ⟨2024, 1, 5⟩) = 50
    ∧ (150 : ℚ) ≠ 50 := by
  with_unfolding_all decide

set_option maxRecDepth 1000000 in
/-- C7 counterexample: a single transfer leg of −50 makes the March income
total of the monthly view equal to −50, refuting the unconditional
income ≥ 0 invariant. -/
theorem income_total_negative :
    (mgetD (monthlyFlowData exTransferGuides exNegTransferTs 2024
        .mn).monthlyTotals ((2024 : Int), 3) Totals.zero).income = -50
    ∧ ¬ (0 ≤ (mgetD (monthlyFlowData exTransferGuides exNegTransferTs 2024
        .mn).monthlyTotals ((2024 : Int), 3) Totals.zero).income) := by
  with_unfolding_all decide

theorem sum_nonpos_of_mem (l : List ℚ) (h : ∀ x ∈ l, x ≤ 0) : l.sum ≤ 0 := by
  induction l with
  | nil => simp
  | cons x rest ih =>
    rw [List.sum_cons]
    have hx := h x (by simp)
    have hr := ih (fun y hy => h y (List.mem_cons_of_mem x hy))
    linarith

/-- C7 (amended): at every bucket of either aggregation the income total is
nonnegative and the expense total nonpositive, provided the record amounts
agree in sign with their type and the bucket's transfer net is
nonnegative. -/
theorem sign_bounded_totals {κ : Type} [DecidableEq κ] (buckets : List κ)
    (key : Transaction → κ) (f : AmountField) (ts : List Transaction) (b : κ)
    (hb : b ∈ buckets)
    (hIncome : ∀ t ∈ ts, t.type = TransactionType.Income → 0 ≤ t.amt f)
    (hExpense : ∀ t ∈ ts, t.type = TransactionType.Expense → t.amt f ≤ 0)
    (hTransfer : 0 ≤ bucketTransferNet key f ts b) :
    (∃ tot, mget (singlePassTotals buckets key f ts) b = some tot
      ∧ 0 ≤ tot.income ∧ tot.expense ≤ 0)
    ∧ (∃ tot, mget (twoPhaseTotals buckets key f ts) b = some tot
      ∧ 0 ≤ tot.income ∧ tot.expense ≤ 0) := by
  have hinc : 0 ≤ bucketIncomeByType key f ts b := by
    unfold bucketIncomeByType sumAmtBy
    apply List.sum_nonneg
    intro x hx
    obtain ⟨t, ht, rfl⟩ := List.mem_map.mp hx
    have h2 := List.mem_filter.mp ht
    have h3 := h2.2
    simp only [Bool.and_eq_true, decide_eq_true_eq, Bool.not_eq_true'] at h3
    exact hIncome t h2.1 h3.1.2
  have hexp : bucketExpenseByType key f ts b ≤ 0 := by
    unfold bucketExpenseByType sumAmtBy
    apply sum_nonpos_of_mem
    intro x hx
    obtain ⟨t, ht, rfl⟩ := List.mem_map.mp hx
    have h2 := List.mem_filter.mp ht
    have h3 := h2.2
    simp only [Bool.and_eq_true, decide_eq_true_eq, Bool.not_eq_true',
      decide_eq_false_iff_not] at h3
    have h4 : t.type = TransactionType.Expense := by
      cases htt : t.type
      · exact absurd htt h3.1.2
      · rfl
    exact hExpense t h2.1 h4
  constructor
  · refine ⟨_, mget_singlePassTotals buckets key f ts b hb, ?_, ?_⟩
    · exact add_nonneg hinc hTransfer
    · exact hexp
  · refine ⟨_, mget_twoPhaseTotals buckets key f ts b hb, ?_, ?_⟩
    · exact add_nonneg hinc hTransfer
    · exact hexp

set_option maxRecDepth 1000000 in
theorem sign_bounded_totals_witness :
    (∃ tot, mget (singlePassTotals [((2024 : Int), 1)]
        (fun t => t.date.monthKey) .mn exScenarioTs) (2024, 1) = some tot
      ∧ 0 ≤ tot.income ∧ tot.expense ≤ 0)
    ∧ (∃ tot, mget (twoPhaseTotals [((2024 : Int), 1)]
        (fun t => t.date.monthKey) .mn exScenarioTs) (2024, 1) = some tot
      ∧ 0 ≤ tot.income ∧ tot.expense ≤ 0) :=
  sign_bounded_totals [((2024 : Int), 1)] (fun t => t.date.monthKey) .mn
    exScenarioTs (2024, 1) (by with_unfolding_all decide)
    (by with_unfolding_all decide) (by with_unfolding_all decide)
    (by with_unfolding_all decide)

set_option maxRecDepth 2000000 in
/-- C1 counterexample: a category whose trailing average A equals 0.01
satisfies the claim's |A| ≥ 0.01 premise, yet every computed forecast value
is exactly 0.01, which never clears the strict > 0.01 storage threshold:
over the 11 forecast months of the selected year the posted sum is 0 while
A × N = 0.11, a deviation far above the claimed 1e-6 tolerance. -/
theorem forecast_posted_sum_deviates :
    mgetD (monthlyAveragesOf exCfgReconcile) "1" 0 = 1/100
    ∧ (forecastMonths exCfgReconcile).length = 11
    ∧ ((forecastMonths exCfgReconcile).map
        (fun my => cellAmount (forecastFlowData exCfgReconcile) "1" my)).sum = 0
    ∧ ¬ (|(0 : ℚ) - (1/100) * 11| ≤ 1/1000000) := by
  with_unfolding_all decide

/-- C1 (amended): the computed (pre-threshold) forecast values of a
non-seasonal category with trailing average A over its N forecast months
sum to exactly A × N — the final month posts A minus the accumulated
perturbation error — and the posted values sum to A × N as well whenever
every computed value clears the strict 0.01 storage threshold. -/
theorem forecast_reconciliation_exact (A : ℚ) (vs : List ℚ)
    (hA : 1/100 ≤ |A|) :
    (forecastSeries A vs).sum = A * (vs.length + 1)
    ∧ ((∀ a ∈ forecastSeries A vs, 0.01 < |a|) →
        (postedValues (forecastSeries A vs)).sum = A * (vs.length + 1)) := by
  constructor
  · unfold forecastSeries
    rw [forecastSeriesGo_sum]
    ring
  · intro hall
    unfold postedValues
    rw [List.filter_eq_self.mpr (fun a ha => by simpa using hall a ha)]
    unfold forecastSeries
    rw [forecastSeriesGo_sum]
    ring

theorem forecast_reconciliation_exact_witness :
    (forecastSeries 1 [(1 : ℚ)/2]).sum = 2 := by
  have h := (forecast_reconciliation_exact 1 [(1 : ℚ)/2]
    (by with_unfolding_all decide)).1
  rw [h]
  with_unfolding_all decide

set_option maxRecDepth 2000000 in
/-- C3 counterexample: a negative forecast of an operating-income category
feeds only the collected side of the code's VAT derivation, while the
claim's formula counts it on the creditable side too: the stored VAT cell
of February 2025 is 16 but the claim's formula yields 32. -/
theorem vat_claim_formula_mismatch :
    cellAmount (forecastFlowData exCfgVat) "2" (2025, 2) = 16
    ∧ (mget (forecastFlowData exCfgVat).vatDetailsByMonth (2025, 2)).isSome
        = true
    ∧ claimNetVat exCfgVat (2025, 2) (forecastFlowData exCfgVat).dataByGuide
        = 32
    ∧ (16 : ℚ) ≠ 32 := by
  with_unfolding_all decide

/-- C3 (amended): in a forecast month with an active VAT category, the VAT
step derives the month's net VAT from the forecasts already stored:
collected VAT from the forecasts of operating-income categories, creditable
VAT only from negative forecasts of categories that are neither
operating-income nor in the fixed by-name exclusion list; above the 0.01
magnitude threshold it posts the negated net and stores the month's full
breakdown, and below it it leaves the state unchanged. -/
theorem vat_step_characterization (cfg : ForecastConfig) (my : Int × Nat)
    (st : FState) (vid : String)
    (hvid : vatGuideIdOf cfg = some vid)
    (hact : (activeGuideIdsOf cfg).contains vid = true) :
    (0.01 < |netVatSpec cfg my st.dataByGuide| →
      (vatStep cfg my st).dataByGuide
        = setCell st.dataByGuide vid my ⟨netVatSpec cfg my st.dataByGuide, true⟩
      ∧ mget (vatStep cfg my st).vatDetailsByMonth my
        = some ⟨vatIncomeEntriesSpec cfg my st.dataByGuide,
                vatExpenseEntriesSpec cfg my st.dataByGuide,
                vatIncomeTotalSpec cfg my st.dataByGuide,
                vatExpenseTotalSpec cfg my st.dataByGuide,
                vatIncomeTotalSpec cfg my st.dataByGuide / 1.16 * 0.16,
                |vatExpenseTotalSpec cfg my st.dataByGuide| / 1.16 * 0.16,
                netVatSpec cfg my st.dataByGuide⟩)
    ∧ (¬ (0.01 < |netVatSpec cfg my st.dataByGuide|) →
        vatStep cfg my st = st) := by
  unfold vatStep
  rw [hvid]
  dsimp only
  rw [if_pos hact, vatDetailBase_spec]
  dsimp only
  have hnv : -(vatIncomeTotalSpec cfg my st.dataByGuide / 1.16 * 0.16
      - |vatExpenseTotalSpec cfg my st.dataByGuide| / 1.16 * 0.16)
      = netVatSpec cfg my st.dataByGuide := rfl
  rw [hnv]
  constructor
  · intro hgt
    rw [if_pos hgt]
    exact ⟨rfl, by rw [mget_mset_self]⟩
  · intro hle
    rw [if_neg hle]

set_option maxRecDepth 1000000 in
theorem vat_step_characterization_witness :
    0.01 < |netVatSpec exCfgVat (2025, 2) exVatState.dataByGuide|
    ∧ ((vatStep exCfgVat (2025, 2) exVatState).dataByGuide
        = setCell exVatState.dataByGuide "2" (2025, 2)
            ⟨netVatSpec exCfgVat (2025, 2) exVatState.dataByGuide, true⟩
      ∧ mget (vatStep exCfgVat (2025, 2) exVatState).vatDetailsByMonth (2025, 2)
        = some ⟨vatIncomeEntriesSpec exCfgVat (2025, 2) exVatState.dataByGuide,
                vatExpenseEntriesSpec exCfgVat (2025, 2) exVatState.dataByGuide,
                vatIncomeTotalSpec exCfgVat (2025, 2) exVatState.dataByGuide,
                vatExpenseTotalSpec exCfgVat (2025, 2) exVatState.dataByGuide,
                vatIncomeTotalSpec exCfgVat (2025, 2) exVatState.dataByGuide
                  / 1.16 * 0.16,
                |vatExpenseTotalSpec exCfgVat (2025, 2) exVatState.dataByGuide|
                  / 1.16 * 0.16,
                netVatSpec exCfgVat (2025, 2) exVatState.dataByGuide⟩) := by
  have hgt : 0.01 < |netVatSpec exCfgVat (2025, 2) exVatState.dataByGuide| := by
    with_unfolding_all decide
  exact ⟨hgt, (vat_step_characterization exCfgVat (2025, 2) exVatState "2"
    (by with_unfolding_all decide) (by with_unfolding_all decide)).1 hgt⟩

theorem mgetD_map_entries {κ : Type} [DecidableEq κ] (m : List (κ × ℚ))
    (F : κ → ℚ → ℚ) (gid : κ) (d : ℚ) :
    mgetD (m.map (fun p => (p.1, F p.1 p.2))) gid d
      = ((mget m gid).map (F gid)).getD d := by
  unfold mgetD
  rw [mget_map_entries]

/-- C4: when the selected year lies strictly beyond the last real
transaction's year, the forecasting average of an active,
non-initial-balance category with a nonempty id is the dampened
prior-year-total / 12 exactly when the naive projection (trailing
average × 12) exceeds the prior-year total in magnitude and that total is
nonzero, and the unchanged trailing average otherwise; the prior-year total
counts actual transactions in real months and the recursive forecast
baseline in months beyond the last real date. -/
theorem yoy_dampening (cfg : ForecastConfig) (gid : String)
    (hfut : isFutureYearOf cfg = true)
    (hactive : (activeGuideIdsOf cfg).contains gid = true)
    (hnotib : (some gid == initialBalanceGuideIdOf cfg) = false)
    (hne : gid ≠ "") :
    mgetD (monthlyAveragesOf cfg) gid 0
      = (if |priorYearTotalSpec cfg gid|
            < |mgetD (baseMonthlyAveragesOf cfg) gid 0 * 12|
          ∧ priorYearTotalSpec cfg gid ≠ 0
        then priorYearTotalSpec cfg gid / 12
        else mgetD (baseMonthlyAveragesOf cfg) gid 0) := by
  unfold monthlyAveragesOf
  rw [if_pos hfut]
  rw [mgetD_map_entries (baseMonthlyAveragesOf cfg)
    (fun k v => if |mgetD (previousYearTotalsOf cfg) k 0| < |v * 12|
        ∧ mgetD (previousYearTotalsOf cfg) k 0 ≠ 0 then
      mgetD (previousYearTotalsOf cfg) k 0 / 12 else v) gid 0]
  cases hbase : mget (baseMonthlyAveragesOf cfg) gid with
  | none =>
    have hb0 : mgetD (baseMonthlyAveragesOf cfg) gid 0 = 0 := by
      unfold mgetD
      rw [hbase]
      rfl
    rw [hb0]
    rw [if_neg (fun hcon => absurd hcon.1 (by
      rw [zero_mul, abs_zero]
      exact not_lt.mpr (abs_nonneg _)))]
    rfl
  | some v =>
    have hbv : mgetD (baseMonthlyAveragesOf cfg) gid 0 = v := by
      unfold mgetD
      rw [hbase]
      rfl
    rw [hbv]
    show (if |mgetD (previousYearTotalsOf cfg) gid 0| < |v * 12|
        ∧ mgetD (previousYearTotalsOf cfg) gid 0 ≠ 0 then
      mgetD (previousYearTotalsOf cfg) gid 0 / 12 else v)
      = if |priorYearTotalSpec cfg gid| < |v * 12|
          ∧ priorYearTotalSpec cfg gid ≠ 0
        then priorYearTotalSpec cfg gid / 12 else v
    rw [mgetD_previousYearTotals cfg gid hactive hnotib hne]

set_option maxRecDepth 1000000 in
theorem yoy_dampening_witness :
    mgetD (monthlyAveragesOf exCfgDampen) "1" 0
      = (if |priorYearTotalSpec exCfgDampen "1"|
            < |mgetD (baseMonthlyAveragesOf exCfgDampen) "1" 0 * 12|
          ∧ priorYearTotalSpec exCfgDampen "1" ≠ 0
        then priorYearTotalSpec exCfgDampen "1" / 12
        else mgetD (baseMonthlyAveragesOf exCfgDampen) "1" 0) :=
  yoy_dampening exCfgDampen "1" (by with_unfolding_all decide)
    (by with_unfolding_all decide) (by with_unfolding_all decide)
    (by with_unfolding_all decide)

end CashFlow
